import Mathlib

/-!
# Verification of the fuzzy record-matching core

Shallow embedding of the matching/scoring engine of this repository
(`fuzzy_matcher.py`, `schema_detection.py`) and proofs about it.

Modelling conventions:
* Python `str` is Lean `String` (the data is ASCII in all relevant paths).
* Python `float` scores are modelled as `ℚ`.  All score formulas in the source
  are of the form `100 * (1 - dist/total)`, `min (s * c) cap`, `(a + b) / 2`
  with small rational constants (`0.8 = 4/5`, `0.7 = 7/10`, `0.5 = 1/2`,
  `0.2 = 1/5`), which are exact in `ℚ`; the comparisons appearing in the
  claims have margins far above double-precision rounding error, and the
  products `threshold * 0.8` used by the code (`68.0`, `60.0`, `64.0`) are
  exact in IEEE double as well.
* `rapidfuzz.fuzz.ratio` is the normalized InDel similarity
  `100 * (1 - dist/(len1+len2))` where `dist` is the insert/delete edit
  distance; we realise `dist` with Mathlib's `levenshtein` at cost
  delete=1, insert=1, substitute=2 (substitution = delete+insert).
* `rapidfuzz.fuzz.token_set_ratio` follows rapidfuzz's algorithm: whitespace
  tokens as sets, early 100 when one token set is contained in the other,
  otherwise the maximum of the InDel similarity of the sorted difference
  strings (normalized over the lengths of `sect+diff` strings) and the two
  `sect` vs `sect+diff` similarities.  The repository's own comment in
  `compute_address_with_apartment_check` ("Just below the ALICE/VALERIE
  score (77.78%)") pins this normalization: our model yields exactly
  `700/9 = 77.77…` for `"ALICE ST"` vs `"VALERIE ST"` (checked below).
-/

set_option maxRecDepth 1000000

/- Batteries marks the `Rat` arithmetic operations `@[irreducible]`, which
blocks `decide`'s evaluation at elaboration time; the kernel itself reduces
them fine.  We restore the default reducibility for this file. -/
attribute [local semireducible] Rat.mul Rat.add Rat.sub Rat.inv

namespace ExcelFiltering

/-! ## Python string primitives -/

/-- Python `str.isspace` characters relevant for ASCII data
(`' '`, `\t`, `\n`, `\r`, `\x0b`, `\x0c`); used by `str.strip()`,
`str.split()` and the regex class `\s`. -/
def py_is_space (c : Char) : Bool :=
  c == ' ' || c == '\t' || c == '\n' || c == '\r' || c.toNat == 11 || c.toNat == 12

/-- Strip characters satisfying `p` from both ends of a character list. -/
def strip_list (p : Char → Bool) (l : List Char) : List Char :=
  ((l.dropWhile p).reverse.dropWhile p).reverse

/-- Python `str.strip()` (no arguments: strips whitespace). -/
def py_strip (s : String) : String :=
  String.mk (strip_list py_is_space s.data)

/-- Python `str.strip(chars)`: strips any of the given characters. -/
def py_strip_chars (cs : List Char) (s : String) : String :=
  String.mk (strip_list (fun c => cs.contains c) s.data)

/-- Python `str.upper()` (ASCII). -/
def py_upper (s : String) : String := String.mk (s.data.map Char.toUpper)

/-- Python `str.lower()` (ASCII). -/
def py_lower (s : String) : String := String.mk (s.data.map Char.toLower)

/-- Helper for `py_split_ws`: accumulates the current token (reversed). -/
def split_ws_aux : List Char → List Char → List String
  | [], acc => if acc.isEmpty then [] else [String.mk acc.reverse]
  | c :: cs, acc =>
    if py_is_space c then
      if acc.isEmpty then split_ws_aux cs []
      else String.mk acc.reverse :: split_ws_aux cs []
    else split_ws_aux cs (c :: acc)

/-- Python `str.split()` with no separator: split on runs of whitespace,
producing no empty tokens. -/
def py_split_ws (s : String) : List String := split_ws_aux s.data []

/-- Python `sep.join(parts)`. -/
def join_with (sep : String) : List String → String
  | [] => ""
  | [x] => x
  | x :: y :: ys => x ++ sep ++ join_with sep (y :: ys)

/-- Single left-to-right pass of Python `str.replace(pat, rep)` over a
character list; `fuel` bounds the recursion (callers pass the list length,
which suffices because every step consumes at least one character when the
pattern is nonempty). -/
def replace_aux (pat rep : List Char) : Nat → List Char → List Char
  | 0, l => l
  | _ + 1, [] => []
  | fuel + 1, c :: cs =>
    if pat.isPrefixOf (c :: cs) then rep ++ replace_aux pat rep fuel ((c :: cs).drop pat.length)
    else c :: replace_aux pat rep fuel cs

/-- Python `s.replace(pat, rep)` (all non-overlapping occurrences,
left to right). -/
def py_replace (s pat rep : String) : String :=
  String.mk (replace_aux pat.data rep.data s.data.length s.data)

/-- Helper for `collapse_ws`: replace each maximal whitespace run by a
single space; `fuel` bounds the recursion (each step consumes at least one
character, so the list length suffices). -/
def collapse_ws_aux : Nat → List Char → List Char
  | 0, l => l
  | _ + 1, [] => []
  | fuel + 1, c :: cs =>
    if py_is_space c then ' ' :: collapse_ws_aux fuel (cs.dropWhile py_is_space)
    else c :: collapse_ws_aux fuel cs

/-- `.str.replace(r"\s+", " ", regex=True)`: collapse every whitespace run
to a single space. -/
def collapse_ws (s : String) : String :=
  String.mk (collapse_ws_aux s.data.length s.data)

/-! ## rapidfuzz primitives -/

/-- Cost structure realising the InDel distance: substitution costs the same
as one deletion plus one insertion. -/
def indel_cost : Levenshtein.Cost Char Char ℕ where
  delete _ := 1
  insert _ := 1
  substitute a b := if a = b then 0 else 2

/-- `rapidfuzz.distance.Indel.distance` on strings. -/
def indel_dist (s t : String) : ℕ := levenshtein indel_cost s.data t.data

/-- `rapidfuzz.fuzz.ratio`: normalized InDel similarity scaled to 0–100. -/
def fuzz_ratio (s t : String) : ℚ :=
  let total := s.length + t.length
  if total = 0 then 100
  else 100 * (((total : ℚ) - indel_dist s t) / total)

/-- Keep the first occurrence of each string (Python `set` membership built
while iterating; the result is later sorted, so ordering is irrelevant). -/
def dedup_aux : List String → List String → List String
  | [], _ => []
  | x :: xs, seen => if seen.contains x then dedup_aux xs seen else x :: dedup_aux xs (x :: seen)

/-- Code-point lexicographic order on character lists (Python string `<`). -/
def chars_lt : List Char → List Char → Bool
  | [], [] => false
  | [], _ :: _ => true
  | _ :: _, [] => false
  | a :: as, b :: bs =>
    if a.toNat < b.toNat then true
    else if b.toNat < a.toNat then false
    else chars_lt as bs

/-- Python string `<` (code-point lexicographic). -/
def str_lt (a b : String) : Bool := chars_lt a.data b.data

/-- Insert into an ascending (code-point lexicographic) sorted list. -/
def insert_sorted (x : String) : List String → List String
  | [] => [x]
  | y :: ys => if str_lt x y then x :: y :: ys else y :: insert_sorted x ys

/-- Python `sorted` on strings (code-point lexicographic). -/
def sort_strings : List String → List String
  | [] => []
  | x :: xs => insert_sorted x (sort_strings xs)

/-- `rapidfuzz.fuzz.token_set_ratio`. -/
def token_set_ratio (s1 s2 : String) : ℚ :=
  let tokens_a := dedup_aux (py_split_ws s1) []
  let tokens_b := dedup_aux (py_split_ws s2) []
  if tokens_a.isEmpty || tokens_b.isEmpty then 0
  else
    let diff_ab := tokens_a.filter (fun t => !(tokens_b.contains t))
    let diff_ba := tokens_b.filter (fun t => !(tokens_a.contains t))
    if diff_ab.isEmpty || diff_ba.isEmpty then 100
    else
      let sect := tokens_a.filter (fun t => tokens_b.contains t)
      let diff_ab_joined := join_with " " (sort_strings diff_ab)
      let diff_ba_joined := join_with " " (sort_strings diff_ba)
      let ab_len := diff_ab_joined.length
      let ba_len := diff_ba_joined.length
      let sect_len := (join_with " " sect).length
      let sect_ab_len := sect_len + (if sect_len = 0 then 0 else 1) + ab_len
      let sect_ba_len := sect_len + (if sect_len = 0 then 0 else 1) + ba_len
      let total := sect_ab_len + sect_ba_len
      let result := 100 * (((total : ℚ) - indel_dist diff_ab_joined diff_ba_joined) / total)
      if sect_len = 0 then result
      else
        let sect_ab_sim :=
          100 * ((((sect_len + sect_ab_len : ℕ) : ℚ) - (1 + ab_len)) / ((sect_len + sect_ab_len : ℕ) : ℚ))
        let sect_ba_sim :=
          100 * ((((sect_len + sect_ba_len : ℕ) : ℚ) - (1 + ba_len)) / ((sect_len + sect_ba_len : ℕ) : ℚ))
        max result (max sect_ab_sim sect_ba_sim)

/-! ## `fuzzy_matcher.py`: address scoring

The regex `\s(APT|APARTMENT|UNIT|TRLR|TRAILER|LOT|BLDG|BUILDING|STE|SUITE|
FLOOR|FL|RM|ROOM|SPACE|SPC|#)\s+([A-Z0-9]+)` with `re.IGNORECASE` is modelled
directly: a whitespace character, then the first alternative (in the
pattern's order) that matches case-insensitively and is followed by at least
one whitespace character and a maximal nonempty run of `[A-Za-z0-9]`.
Since the character classes `\s` and `[A-Z0-9]` are disjoint, greedy maximal
munch is exactly the regex's backtracking semantics.  `re.search` scans for
the leftmost position at which the whole pattern matches. -/

/-- The alternatives of the property-designator pattern, in the pattern's
order. -/
def designator_tokens : List String :=
  ["APT", "APARTMENT", "UNIT", "TRLR", "TRAILER", "LOT", "BLDG", "BUILDING",
   "STE", "SUITE", "FLOOR", "FL", "RM", "ROOM", "SPACE", "SPC", "#"]

/-- `[A-Z0-9]` under `re.IGNORECASE`. -/
def is_alnum_ci (c : Char) : Bool :=
  ('A' ≤ c && c ≤ 'Z') || ('a' ≤ c && c ≤ 'z') || ('0' ≤ c && c ≤ '9')

/-- Match `pat` (uppercase) case-insensitively at the start of `l`,
returning the remaining characters. -/
def drop_pat_ci : List Char → List Char → Option (List Char)
  | [], l => some l
  | _ :: _, [] => none
  | p :: ps, c :: cs => if c.toUpper = p then drop_pat_ci ps cs else none

/-- Try the designator alternatives in order at the position just after the
matched `\s`.  On success, return the designator type (group 1, uppercased),
the identifier (group 2, uppercased), and the number of characters consumed
after the leading whitespace character (for `re.sub`). -/
def try_designators : List String → List Char → Option (String × String × Nat)
  | [], _ => none
  | d :: ds, l =>
    match drop_pat_ci d.data l with
    | some rest =>
      let ws := rest.takeWhile py_is_space
      let rest2 := rest.dropWhile py_is_space
      let ident := rest2.takeWhile is_alnum_ci
      if !ws.isEmpty && !ident.isEmpty then
        some (d, String.mk (ident.map Char.toUpper), d.length + ws.length + ident.length)
      else try_designators ds l
    | none => try_designators ds l

/-- Scan left to right for the first match of the designator pattern
(`re.search`).  The matched text of groups 1 and 2 is returned uppercased,
matching the `.upper()` calls applied by the source at every use site. -/
def find_designator_aux : List Char → Option (String × String)
  | [] => none
  | c :: cs =>
    if py_is_space c then
      match try_designators designator_tokens cs with
      | some (t, n, _) => some (t, n)
      | none => find_designator_aux cs
    else find_designator_aux cs

/-- `re.search(apt_pattern, addr, re.IGNORECASE)` with the groups uppercased. -/
def find_designator (s : String) : Option (String × String) :=
  find_designator_aux s.data

/-- Helper for `_strip_property_designators`: `re.sub` removes every
non-overlapping match, continuing after each match; `fuel` bounds the
recursion (each step consumes at least one character). -/
def strip_desig_aux : Nat → List Char → List Char
  | 0, l => l
  | _ + 1, [] => []
  | fuel + 1, c :: cs =>
    if py_is_space c then
      match try_designators designator_tokens cs with
      | some (_, _, n) => strip_desig_aux fuel (cs.drop n)
      | none => c :: strip_desig_aux fuel cs
    else c :: strip_desig_aux fuel cs

/-- `_strip_property_designators`: remove designator matches, then
`.replace("  ", " ").strip()`. -/
def strip_property_designators (s : String) : String :=
  py_strip (py_replace (String.mk (strip_desig_aux s.data.length s.data)) "  " " ")

/-- House-number extraction: `re.search(r'^\d+', addr.strip())`, converted
with `int` (Python big integers, so `ℕ`). -/
def house_number (s : String) : Option Nat :=
  let ds := (py_strip s).data.takeWhile Char.isDigit
  if ds.isEmpty then none
  else some (ds.foldl (fun n c => n * 10 + (c.toNat - 48)) 0)

/-- Street-name substring: `re.sub(r'^\d+\s*', '', addr.strip())` then
`.split(',')[0].strip()`.  The anchored sub removes the leading digit run
and any following whitespace (only when a leading digit exists). -/
def extract_street (addr : String) : String :=
  let t := (py_strip addr).data
  let after_num :=
    if (t.takeWhile Char.isDigit).isEmpty then t
    else (t.dropWhile Char.isDigit).dropWhile py_is_space
  py_strip (String.mk (after_num.takeWhile (fun c => c ≠ ',')))

/-- `normalize_street`: sequential `str.replace` of common suffixes. -/
def normalize_street (street : String) : String :=
  py_replace (py_replace (py_replace (py_replace (py_replace (py_replace
    (py_replace street " STREET" " ST") " ROAD" " RD") " AVENUE" " AVE")
    " LANE" " LN") " DRIVE" " DR") " COURT" " CT") " PLACE" " PL"

/-- The street-name gate of `compute_address_with_apartment_check`
(lines 336–367): token-set similarity of the normalized street names; below
78 the score is capped at `min(fuzz.ratio * 0.7, 65.0)`, otherwise the plain
`fuzz.ratio` of the full strings is returned. -/
def street_gate (addr1 addr2 : String) : ℚ :=
  let street_similarity :=
    token_set_ratio (normalize_street (extract_street addr1))
      (normalize_street (extract_street addr2))
  if street_similarity < 78 then min (fuzz_ratio addr1 addr2 * (7/10)) 65
  else fuzz_ratio addr1 addr2

/-- `compute_address_with_apartment_check`. -/
def compute_address_with_apartment_check (addr1 addr2 : String) : ℚ :=
  match find_designator addr1, find_designator addr2 with
  | some (type1, num1), some (type2, num2) =>
    if type1 ≠ type2 ∨ num1 ≠ num2 then 0 else street_gate addr1 addr2
  | some _, none => 0
  | none, some _ => 0
  | none, none => street_gate addr1 addr2

/-- `compute_address_score`: house-number tiers
(`0.8/85`, `0.5/60`, `0.2/30`), falling back to `token_set_ratio` when
either address lacks a leading number. -/
def compute_address_score (addr1 addr2 : String) : ℚ :=
  match house_number addr1, house_number addr2 with
  | some num1, some num2 =>
    let num_diff := ((num1 : ℤ) - (num2 : ℤ)).natAbs
    if num_diff = 0 then compute_address_with_apartment_check addr1 addr2
    else if num_diff ≤ 2 then min (token_set_ratio addr1 addr2 * (4/5)) 85
    else if num_diff ≤ 10 then min (token_set_ratio addr1 addr2 * (1/2)) 60
    else min (token_set_ratio addr1 addr2 * (1/5)) 30
  | _, _ => token_set_ratio addr1 addr2

/-- Summary of the designator check's decision, for stating claims: `true`
iff the pair is rejected (score 0) by the designator rules — both sides
have a designator differing in type or identifier (case-insensitively; the
components returned by `find_designator` are uppercased), or exactly one
side has one. -/
def designator_conflict (addr1 addr2 : String) : Bool :=
  match find_designator addr1, find_designator addr2 with
  | some (type1, num1), some (type2, num2) => type1 ≠ type2 || num1 ≠ num2
  | some _, none => true
  | none, some _ => true
  | none, none => false

/-! ## `fuzzy_matcher.py`: strategies and the matching run -/

/-- A preprocessed record (row of a standardized DataFrame). -/
structure Row where
  First_Name : String
  Last_Name : String
  Address1 : String
  City : String
  State : String
  Zip : String
  FullAddress : String
deriving DecidableEq

/-- The three match strategies. -/
inductive MatchType where
  | FullName
  | LastNameAddress
  | FullAddress
deriving DecidableEq

/-- Default thresholds of `run_specific_match` (85.0 / 75.0 / 80.0). -/
def default_threshold : MatchType → ℚ
  | .FullName => 85
  | .LastNameAddress => 75
  | .FullAddress => 80

/-- `compute_individual_scores`. -/
def compute_individual_scores (row1 row2 : Row) : ℚ × ℚ × ℚ :=
  (token_set_ratio row1.First_Name row2.First_Name,
   token_set_ratio row1.Last_Name row2.Last_Name,
   compute_address_score row1.FullAddress row2.FullAddress)

/-- `get_combined_score` (scores are `(first, last, address)`). -/
def get_combined_score (scores : ℚ × ℚ × ℚ) (match_type : MatchType) : ℚ :=
  match match_type with
  | .FullName => if scores.1 > 0 ∧ scores.2.1 > 0 then (scores.1 + scores.2.1) / 2 else 0
  | .LastNameAddress => if scores.2.1 > 0 ∧ scores.2.2 > 0 then (scores.2.1 + scores.2.2) / 2 else 0
  | .FullAddress => scores.2.2

/-- `create_search_string`. -/
def create_search_string (row : Row) (match_type : MatchType) : String :=
  match match_type with
  | .FullName => py_strip (row.First_Name ++ " " ++ row.Last_Name)
  | .LastNameAddress =>
    let fulladdr := py_strip row.FullAddress
    if fulladdr ≠ "" then
      py_strip (row.Last_Name ++ " " ++ strip_property_designators fulladdr)
    else
      let fallback :=
        join_with " " (([py_strip row.City, py_strip row.State, py_strip row.Zip]).filter
          (fun p => p ≠ ""))
      py_strip (row.Last_Name ++ " " ++ fallback)
  | .FullAddress => row.FullAddress

/-- The input-side address used by the `LastNameAddress` rescoring
(lines 505–512): the stripped `FullAddress`, or, when that is blank, the
fallback `", ".join([city, state])` plus the zip. -/
def last_name_address_input_addr (row1 : Row) : String :=
  let fa1 := py_strip row1.FullAddress
  if fa1 ≠ "" then fa1
  else
    let base := join_with ", " (([py_strip row1.City, py_strip row1.State]).filter
      (fun p => p ≠ ""))
    let z := py_strip row1.Zip
    if z ≠ "" then py_strip (base ++ " " ++ z) else base

/-- The `(first, last, address)` scores the run loop feeds to
`get_combined_score` (lines 502–520): for `LastNameAddress` the address
score is recomputed on designator-stripped addresses, otherwise
`compute_individual_scores` is used. -/
def strategy_scores (row1 row2 : Row) (match_type : MatchType) : ℚ × ℚ × ℚ :=
  match match_type with
  | .LastNameAddress =>
    let addr1 := strip_property_designators (last_name_address_input_addr row1)
    let addr2 := strip_property_designators row2.FullAddress
    (token_set_ratio row1.First_Name row2.First_Name,
     token_set_ratio row1.Last_Name row2.Last_Name,
     compute_address_score addr1 addr2)
  | _ => compute_individual_scores row1 row2

/-- The exact (rescored) combined score of a master row against an input
row under a strategy. -/
def accurate_score (row1 row2 : Row) (match_type : MatchType) : ℚ :=
  get_combined_score (strategy_scores row1 row2 match_type) match_type

/-- One emitted result row (the dict appended at lines 532–540; indices are
the spreadsheet rows `original index + 2`). -/
structure MatchRec where
  score : ℚ
  sheetARow : Nat
  sheetBRow : Nat
  nameA : String
  nameB : String
  addrA : String
  addrB : String
deriving DecidableEq

/-- Python `round(x, 2)` (round half to even on the scaled value). -/
def py_round2 (q : ℚ) : ℚ :=
  let x := q * 100
  let f : ℤ := ⌊x⌋
  let r : ℤ :=
    if x - f < 1/2 then f
    else if (1:ℚ)/2 < x - f then f + 1
    else if f % 2 = 0 then f else f + 1
  (r : ℚ) / 100

/-- The candidate pool `df2_list` (lines 463–466): all master rows with
their original indices; for the address-based strategies, rows without a
usable `FullAddress` are excluded. -/
def master_pool (df2 : List Row) (match_type : MatchType) : List (Nat × Row) :=
  if match_type = .FullAddress ∨ match_type = .LastNameAddress then
    df2.enum.filter (fun p => py_strip p.2.FullAddress ≠ "")
  else df2.enum

/-- Approximate scores of the whole pool against the query string, in pool
order (the code scores `search_strings[i]` and maps position `i` back to
`df2_list[i]`; we carry the pool entry directly). -/
def scored_pool (q : String) (pool : List (Nat × Row)) (match_type : MatchType) :
    List ((Nat × Row) × ℚ) :=
  pool.map (fun p => (p, token_set_ratio q (create_search_string p.2 match_type)))

/-- Insert into a descending-by-score list, after any earlier entry with an
equal score (stability: equal approximate scores keep pool order, as
`rapidfuzz.process.extract`'s stable sort does). -/
def insert_cand (x : (Nat × Row) × ℚ) :
    List ((Nat × Row) × ℚ) → List ((Nat × Row) × ℚ)
  | [] => [x]
  | y :: ys => if y.2 < x.2 then x :: y :: ys else y :: insert_cand x ys

/-- Stable sort, descending by approximate score. -/
def sort_cands : List ((Nat × Row) × ℚ) → List ((Nat × Row) × ℚ)
  | [] => []
  | x :: xs => insert_cand x (sort_cands xs)

/-- `process.extract(..., limit=10)` followed by the loop's early `break`
when a candidate's approximate score drops below `threshold * 0.8`
(safe because candidates are in descending order). -/
def shortlist (q : String) (pool : List (Nat × Row)) (match_type : MatchType)
    (threshold : ℚ) : List ((Nat × Row) × ℚ) :=
  ((sort_cands (scored_pool q pool match_type)).take 10).takeWhile
    (fun c => !(c.2 < threshold * (4/5)))

/-- The candidate loop (lines 475–526): running best score (starting at 0)
and best pool entry (starting absent), updated on strictly greater exact
scores. -/
def best_cand_aux (row1 : Row) (match_type : MatchType)
    (acc : ℚ × Option (Nat × Row)) :
    List ((Nat × Row) × ℚ) → ℚ × Option (Nat × Row)
  | [] => acc
  | c :: cs =>
    best_cand_aux row1 match_type
      (if acc.1 < accurate_score row1 c.1.2 match_type then
        (accurate_score row1 c.1.2 match_type, some c.1)
      else acc) cs

/-- Processing of one input row (the body of the `for idx1, row1` loop):
skip when the strategy is `FullAddress` and the input's `FullAddress` is
blank; otherwise rescore the shortlist and emit a result row when the best
score reaches the threshold. -/
def process_row (pool : List (Nat × Row)) (match_type : MatchType) (threshold : ℚ)
    (idx_row : Nat × Row) : Option MatchRec :=
  if match_type = .FullAddress ∧ py_strip idx_row.2.FullAddress = "" then none
  else
    let q := create_search_string idx_row.2 match_type
    let best := best_cand_aux idx_row.2 match_type (0, none)
      (shortlist q pool match_type threshold)
    match best.2 with
    | some (idx2, row2) =>
      if threshold ≤ best.1 then
        some { score := py_round2 best.1
               sheetARow := idx_row.1 + 2
               sheetBRow := idx2 + 2
               nameA := py_strip (idx_row.2.First_Name ++ " " ++ idx_row.2.Last_Name)
               nameB := py_strip (row2.First_Name ++ " " ++ row2.Last_Name)
               addrA := idx_row.2.FullAddress
               addrB := row2.FullAddress }
      else none
    | none => none

/-- Insert into a descending-by-score result list (stable). -/
def insert_rec (x : MatchRec) : List MatchRec → List MatchRec
  | [] => [x]
  | y :: ys => if y.score < x.score then x :: y :: ys else y :: insert_rec x ys

/-- Final `sort_values(by='Match Score', ascending=False)`.  (pandas'
default quicksort fixes no order among equal scores; we model a stable
sort — every property proved about the output is invariant under
permutations of equal-score rows.) -/
def sort_recs : List MatchRec → List MatchRec
  | [] => []
  | x :: xs => insert_rec x (sort_recs xs)

/-- `run_specific_match` (threshold `none` selects the per-strategy
default). -/
def run_specific_match (df1 df2 : List Row) (match_type : MatchType)
    (threshold? : Option ℚ) : List MatchRec :=
  let threshold := threshold?.getD (default_threshold match_type)
  let pool := master_pool df2 match_type
  sort_recs (df1.enum.filterMap (process_row pool match_type threshold))

/-! ## `fuzzy_matcher.py`: preprocessing (row level)

`preprocess_data` fills missing values with `''`, uppercases and trims the
six standard columns, then derives `FullAddress` only when all four core
parts are non-empty, finally stripping `', '`-characters from both ends
(lines 44–64).  We model the per-row computation. -/

/-- `.fillna('').astype(str).str.upper().str.strip()` on one cell. -/
def preprocess_field (s : String) : String := py_strip (py_upper s)

/-- The `FullAddress` derivation over already-preprocessed parts
(lines 51–64): the concatenation `Address1, City, State Zip` with any
leading/trailing `','`/`' '` stripped, or `""` when a part is empty. -/
def make_full_address (a c s z : String) : String :=
  if a ≠ "" ∧ c ≠ "" ∧ s ≠ "" ∧ z ≠ "" then
    py_strip_chars [',', ' '] (a ++ ", " ++ c ++ ", " ++ s ++ " " ++ z)
  else ""

/-- Row-level `preprocess_data`: normalize the six standard fields and
derive `FullAddress`. -/
def preprocess_data_row (first last a1 city st z : String) : Row :=
  let f := preprocess_field first
  let l := preprocess_field last
  let a := preprocess_field a1
  let c := preprocess_field city
  let s := preprocess_field st
  let zz := preprocess_field z
  { First_Name := f, Last_Name := l, Address1 := a, City := c, State := s,
    Zip := zz, FullAddress := make_full_address a c s zz }

/-- The derived address line of `preprocess_input_variable`
(lines 136–143): `Address1` merged with `Address2` (whitespace collapsed,
then trimmed) when an `Address2` column is mapped, else `Address1`
unchanged. -/
def input_addr_line (a1 : String) (a2? : Option String) : String :=
  match a2? with
  | some a2 => py_strip (collapse_ws (a1 ++ " " ++ a2))
  | none => a1

/-- The `FullAddress` derivation of `preprocess_input_variable`
(lines 145–161), applied to the *raw* (not yet uppercased/trimmed) parts:
built only when all four parts are non-empty after trimming, then
whitespace runs are collapsed and `','`/`' '` stripped from both ends. -/
def derive_input_full_address (addr_line city st z : String) : String :=
  if py_strip addr_line ≠ "" ∧ py_strip city ≠ "" ∧ py_strip st ≠ "" ∧ py_strip z ≠ "" then
    py_strip_chars [',', ' ']
      (collapse_ws (addr_line ++ ", " ++ city ++ ", " ++ st ++ " " ++ z))
  else ""

/-- Row-level `preprocess_input_variable` (lines 111–165) for directly
mapped name columns (the `FullName`-splitting variant is
`input_row_from_full_name` below): the six fields are taken raw from their
mapped columns (missing column → `""`), `FullAddress` is either the mapped
source column's raw value (lines 133–134) or the derivation above, and
every column is uppercased and trimmed at the end (lines 163–165). -/
def preprocess_input_row (first last a1 : String) (a2? : Option String)
    (city st z : String) (fa_source? : Option String) : Row :=
  let fa_raw :=
    match fa_source? with
    | some fa => fa
    | none => derive_input_full_address (input_addr_line a1 a2?) city st z
  { First_Name := py_strip (py_upper first)
    Last_Name := py_strip (py_upper last)
    Address1 := py_strip (py_upper a1)
    City := py_strip (py_upper city)
    State := py_strip (py_upper st)
    Zip := py_strip (py_upper z)
    FullAddress := py_strip (py_upper fa_raw) }

/-! ## `schema_detection.py` -/

/-- `_normalize_header`: strip, lowercase, keep only `[a-z0-9]`. -/
def normalize_header (h : String) : String :=
  String.mk (((py_strip h).data.map Char.toLower).filter
    (fun c => ('a' ≤ c && c ≤ 'z') || ('0' ≤ c && c ≤ '9')))

/-- `HEADER_SYNONYMS`, in the module's (insertion) order. -/
def HEADER_SYNONYMS : List (String × List String) :=
  [("First_Name", ["First_Name", "FirstName", "First", "FName", "GivenName"]),
   ("Last_Name", ["Last_Name", "LastName", "Last", "LName", "Surname", "FamilyName"]),
   ("FullName", ["Full_Name", "FullName", "Name", "CustomerName", "ClientName", "ContactName"]),
   ("Address1", ["Address1", "Address", "Addr1", "StreetAddress", "Street",
                 "Address Line 1", "AddressLine1"]),
   ("Address2", ["Address2", "Addr2", "Address Line 2", "AddressLine2"]),
   ("City", ["City", "Town", "Municipality", "Locality"]),
   ("State", ["State", "St", "Province", "Region"]),
   ("Zip", ["Zip", "Zip5", "ZipCode", "PostalCode", "Postcode"]),
   ("FullAddress", ["FullAddress", "MailingAddress", "Full Address"])]

/-- `SUFFIX_TOKENS`. -/
def SUFFIX_TOKENS : List String := ["JR", "SR", "II", "III", "IV"]

/-- Does a column header match one of a canonical field's synonyms
(case/punctuation-insensitively)? -/
def header_matches (variants : List String) (col : String) : Bool :=
  (variants.map normalize_header).contains (normalize_header col)

/-- `_candidate_headers`. -/
def candidate_headers (df_columns : List String) (variants : List String) : List String :=
  df_columns.filter (header_matches variants)

/-- `DetectedField`. -/
structure DetectedField where
  canonical : String
  source : Option String
  derived : Option String
deriving DecidableEq

/-- The payload of the `SchemaError` raised by `_pick_single_or_raise`
(the Python exception stringifies a dict whose `columns` entry is the
offending candidate list; we keep the structured content). -/
structure SchemaErr where
  canonical : String
  columns : List String
deriving DecidableEq

/-- `_pick_single_or_raise`. -/
def pick_single_or_raise (canonical : String) (candidates : List String) :
    Except SchemaErr (Option String) :=
  if 2 ≤ candidates.length then .error ⟨canonical, candidates⟩
  else .ok candidates.head?

/-- First pass of `detect_schema`: direct header matches, in synonym-table
order, failing fast on the first ambiguous canonical field. -/
def first_pass (df_columns : List String) :
    List (String × List String) → Except SchemaErr (List (String × DetectedField))
  | [] => .ok []
  | (canonical, variants) :: rest =>
    match pick_single_or_raise canonical (candidate_headers df_columns variants) with
    | .error e => .error e
    | .ok none => first_pass df_columns rest
    | .ok (some chosen) =>
      match first_pass df_columns rest with
      | .error e => .error e
      | .ok m => .ok ((canonical, ⟨canonical, some chosen, none⟩) :: m)

/-- Key lookup in the detected mapping. -/
def maps_canonical (m : List (String × DetectedField)) (c : String) : Bool :=
  (m.map Prod.fst).contains c

/-- First derivation rule of `detect_schema`: `FullName` from
`First_Name`/`Last_Name`. -/
def derive_full_name (m : List (String × DetectedField)) : List (String × DetectedField) :=
  if !maps_canonical m "FullName" &&
      (maps_canonical m "First_Name" && maps_canonical m "Last_Name") then
    m ++ [("FullName", ⟨"FullName", none, some "concat(First_Name, space, Last_Name)"⟩)]
  else m

/-- Second derivation rule: `First_Name`/`Last_Name` from `FullName`. -/
def derive_first_last (m : List (String × DetectedField)) : List (String × DetectedField) :=
  if (!maps_canonical m "First_Name" || !maps_canonical m "Last_Name") &&
      maps_canonical m "FullName" then
    (if !maps_canonical m "First_Name" then
      m ++ [("First_Name", ⟨"First_Name", none, some "split(FullName).first"⟩)]
    else m) ++
    (if !maps_canonical m "Last_Name" then
      [("Last_Name", ⟨"Last_Name", none, some "split(FullName).last"⟩)]
    else [])
  else m

/-- Third derivation rule: `FullAddress` from the four parts. -/
def derive_full_address (m : List (String × DetectedField)) : List (String × DetectedField) :=
  if !maps_canonical m "FullAddress" &&
      (maps_canonical m "Address1" && maps_canonical m "City" &&
       maps_canonical m "State" && maps_canonical m "Zip") then
    m ++ [("FullAddress", ⟨"FullAddress", none, some "concat(Address1, City, State, Zip)"⟩)]
  else m

/-- The three derivation rules of `detect_schema`, applied sequentially to
the first-pass mapping. -/
def add_derived (m : List (String × DetectedField)) : List (String × DetectedField) :=
  derive_full_address (derive_first_last (derive_full_name m))

/-- `detect_schema` (the `file`/`sheet` arguments only decorate the error
message and are omitted). -/
def detect_schema (df_columns : List String) :
    Except SchemaErr (List (String × DetectedField)) :=
  match first_pass df_columns HEADER_SYNONYMS with
  | .error e => .error e
  | .ok m => .ok (add_derived m)

/-- Last element of a string list, or `""` (used only on nonempty lists). -/
def last_or_empty : List String → String
  | [] => ""
  | [x] => x
  | _ :: y :: ys => last_or_empty (y :: ys)

/-- Python `str.rstrip(".")`. -/
def rstrip_dots (s : String) : String :=
  String.mk (s.data.reverse.dropWhile (fun c => c = '.')).reverse

/-- `split_full_name`: last-space rule with suffix handling.  Note the
source requires `len(parts) >= 3` for the suffix absorption. -/
def split_full_name (full_name : String) : String × String :=
  let name := py_strip full_name
  if name = "" then ("", "")
  else
    let parts := py_split_ws name
    match parts with
    | [] => ("", "")
    | [p] => (p, "")
    | _ :: _ :: _ =>
      if SUFFIX_TOKENS.contains (py_upper (rstrip_dots (last_or_empty parts))) ∧
          3 ≤ parts.length then
        (join_with " " (parts.take (parts.length - 2)),
         join_with " " (parts.drop (parts.length - 2)))
      else (join_with " " (parts.take (parts.length - 1)), last_or_empty parts)

/-- `preprocess_input_variable`'s name handling for a `FullName` input
column (lines 92–100 and 163–165): split, then uppercase/trim both halves. -/
def input_row_from_full_name (full_name : String) : Row :=
  let fl := split_full_name full_name
  { First_Name := py_strip (py_upper fl.1), Last_Name := py_strip (py_upper fl.2),
    Address1 := "", City := "", State := "", Zip := "", FullAddress := "" }

/-! ## Helper lemmas -/

lemma levenshtein_indel_self : ∀ l : List Char, levenshtein indel_cost l l = 0
  | [] => levenshtein_nil_nil
  | x :: xs => by
    have ih := levenshtein_indel_self xs
    have hsub : indel_cost.substitute x x = 0 := by simp [indel_cost]
    rw [levenshtein_cons_cons, hsub, ih]
    omega

lemma indel_dist_self (s : String) : indel_dist s s = 0 :=
  levenshtein_indel_self s.data

lemma fuzz_ratio_self (s : String) : fuzz_ratio s s = 100 := by
  by_cases h : s.length + s.length = 0
  · simp [fuzz_ratio, h]
  · have hq : ((s.length + s.length : ℕ) : ℚ) ≠ 0 := Nat.cast_ne_zero.mpr h
    simp only [fuzz_ratio, h, if_false, indel_dist_self, Nat.cast_zero, sub_zero]
    have hq2 : (s.length : ℚ) + s.length ≠ 0 := by push_cast at hq; exact hq
    push_cast
    rw [div_self hq2, mul_one]

lemma filter_not_contains_self (l : List String) :
    l.filter (fun t => !(l.contains t)) = [] := by
  rw [List.filter_eq_nil_iff]
  intro a ha
  simp [List.contains, ha]

lemma token_set_ratio_self (s : String) (h : py_split_ws s ≠ []) :
    token_set_ratio s s = 100 := by
  unfold token_set_ratio
  rcases hps : py_split_ws s with _ | ⟨x, xs⟩
  · exact absurd hps h
  · simp only [hps, dedup_aux, List.contains_nil, Bool.false_eq_true, if_false,
      filter_not_contains_self, List.isEmpty_nil, List.isEmpty_cons,
      Bool.or_true, Bool.true_or, Bool.or_false, Bool.false_or, if_true]

lemma compute_address_score_eq_check (addr1 addr2 : String) (n : ℕ)
    (h1 : house_number addr1 = some n) (h2 : house_number addr2 = some n) :
    compute_address_score addr1 addr2 = compute_address_with_apartment_check addr1 addr2 := by
  unfold compute_address_score
  rw [h1, h2]
  simp

lemma check_of_conflict (addr1 addr2 : String)
    (h : designator_conflict addr1 addr2 = true) :
    compute_address_with_apartment_check addr1 addr2 = 0 := by
  unfold compute_address_with_apartment_check
  unfold designator_conflict at h
  rcases hd1 : find_designator addr1 with _ | ⟨t1, i1⟩ <;>
    rcases hd2 : find_designator addr2 with _ | ⟨t2, i2⟩ <;>
    simp_all

lemma check_of_no_conflict (addr1 addr2 : String)
    (h : designator_conflict addr1 addr2 = false) :
    compute_address_with_apartment_check addr1 addr2 = street_gate addr1 addr2 := by
  unfold compute_address_with_apartment_check
  unfold designator_conflict at h
  rcases hd1 : find_designator addr1 with _ | ⟨t1, i1⟩ <;>
    rcases hd2 : find_designator addr2 with _ | ⟨t2, i2⟩ <;>
    simp_all

/-! ## Claims -/

/-- **C1.** For every pair of addresses whose leading house numbers are
equal, if both contain a property-designator token followed by an
alphanumeric identifier and the two designators differ in type or in
identifier (case-insensitive), or exactly one of the two addresses contains
such a designator (`designator_conflict`), then `compute_address_score`
returns 0. -/
theorem claim_C1 (addr1 addr2 : String) (n : ℕ)
    (h1 : house_number addr1 = some n) (h2 : house_number addr2 = some n)
    (hc : designator_conflict addr1 addr2 = true) :
    compute_address_score addr1 addr2 = 0 := by
  rw [compute_address_score_eq_check addr1 addr2 n h1 h2]
  exact check_of_conflict addr1 addr2 hc

/-- Witness for C1: the repository's own TRLR 9 vs LOT 3 example. -/
theorem claim_C1_witness :
    house_number "268 FLANDERS RD TRLR 9, MYSTIC, CT 6355" = some 268 ∧
    house_number "268 FLANDERS RD LOT 3, MYSTIC, CT 06355" = some 268 ∧
    find_designator "268 FLANDERS RD TRLR 9, MYSTIC, CT 6355" = some ("TRLR", "9") ∧
    find_designator "268 FLANDERS RD LOT 3, MYSTIC, CT 06355" = some ("LOT", "3") ∧
    designator_conflict "268 FLANDERS RD TRLR 9, MYSTIC, CT 6355"
      "268 FLANDERS RD LOT 3, MYSTIC, CT 06355" = true ∧
    compute_address_score "268 FLANDERS RD TRLR 9, MYSTIC, CT 6355"
      "268 FLANDERS RD LOT 3, MYSTIC, CT 06355" = 0 :=
  ⟨by decide, by decide, by decide, by decide, by decide,
   claim_C1 _ _ 268 (by decide) (by decide) (by decide)⟩

/-- **C3.** For every pair of addresses with equal house numbers and no
designator conflict: if the token-set similarity of the suffix-normalized
street substrings is below 78, the score is `min(fuzz_ratio * 0.7, 65)`
(hence at most 65); otherwise it is the uncapped `fuzz_ratio` of the two
full strings.  In particular the ALICE/VALERIE pair scores at most 65. -/
theorem claim_C3 :
    (∀ addr1 addr2 : String, ∀ n : ℕ,
      house_number addr1 = some n → house_number addr2 = some n →
      designator_conflict addr1 addr2 = false →
      (token_set_ratio (normalize_street (extract_street addr1))
          (normalize_street (extract_street addr2)) < 78 →
        compute_address_score addr1 addr2 = min (fuzz_ratio addr1 addr2 * (7/10)) 65 ∧
        compute_address_score addr1 addr2 ≤ 65) ∧
      (78 ≤ token_set_ratio (normalize_street (extract_street addr1))
          (normalize_street (extract_street addr2)) →
        compute_address_score addr1 addr2 = fuzz_ratio addr1 addr2)) ∧
    compute_address_score "8 ALICE ST, NEW LONDON, CT 06320"
      "8 VALERIE ST, NEW LONDON, CT 06320" ≤ 65 := by
  constructor
  · intro addr1 addr2 n h1 h2 hc
    rw [compute_address_score_eq_check addr1 addr2 n h1 h2,
      check_of_no_conflict addr1 addr2 hc]
    unfold street_gate
    constructor
    · intro hlt
      rw [if_pos hlt]
      exact ⟨rfl, min_le_right _ _⟩
    · intro hge
      rw [if_neg (not_lt.mpr hge)]
  · decide

/-- Witness for C3: the ALICE/VALERIE pair goes through the capped branch. -/
theorem claim_C3_witness :
    house_number "8 ALICE ST, NEW LONDON, CT 06320" = some 8 ∧
    house_number "8 VALERIE ST, NEW LONDON, CT 06320" = some 8 ∧
    designator_conflict "8 ALICE ST, NEW LONDON, CT 06320"
      "8 VALERIE ST, NEW LONDON, CT 06320" = false ∧
    token_set_ratio (normalize_street (extract_street "8 ALICE ST, NEW LONDON, CT 06320"))
      (normalize_street (extract_street "8 VALERIE ST, NEW LONDON, CT 06320")) < 78 ∧
    compute_address_score "8 ALICE ST, NEW LONDON, CT 06320"
        "8 VALERIE ST, NEW LONDON, CT 06320" =
      min (fuzz_ratio "8 ALICE ST, NEW LONDON, CT 06320"
        "8 VALERIE ST, NEW LONDON, CT 06320" * (7/10)) 65 :=
  ⟨by decide, by decide, by decide, by decide,
   ((claim_C3.1 _ _ 8 (by decide) (by decide) (by decide)).1 (by decide)).1⟩

lemma compute_address_score_of_nums (addr1 addr2 : String) (n1 n2 : ℕ)
    (h1 : house_number addr1 = some n1) (h2 : house_number addr2 = some n2) :
    compute_address_score addr1 addr2 =
      (if ((n1 : ℤ) - n2).natAbs = 0 then compute_address_with_apartment_check addr1 addr2
       else if ((n1 : ℤ) - n2).natAbs ≤ 2 then min (token_set_ratio addr1 addr2 * (4/5)) 85
       else if ((n1 : ℤ) - n2).natAbs ≤ 10 then min (token_set_ratio addr1 addr2 * (1/2)) 60
       else min (token_set_ratio addr1 addr2 * (1/5)) 30) := by
  unfold compute_address_score
  rw [h1, h2]

lemma designator_conflict_self (addr : String) :
    designator_conflict addr addr = false := by
  unfold designator_conflict
  rcases find_designator addr with _ | ⟨t, i⟩ <;> simp

/-- **C4 (counterexample).** The claimed strict monotonicity
`score(diff∈[1,2]) > score(diff∈[3,10])` fails for fixed non-empty street,
city, state and zip: at a decimal rollover the house numbers at distance 1
share no digits while the ones at distance 3 almost coincide, so the
token-set similarities (and with them the capped tier scores) invert. -/
theorem claim_C4_counterexample :
    house_number "99999999999999999999 Q, B, C 1" = some 99999999999999999999 ∧
    house_number "100000000000000000000 Q, B, C 1" = some 100000000000000000000 ∧
    house_number "99999999999999999996 Q, B, C 1" = some 99999999999999999996 ∧
    find_designator "99999999999999999999 Q, B, C 1" = none ∧
    find_designator "100000000000000000000 Q, B, C 1" = none ∧
    find_designator "99999999999999999996 Q, B, C 1" = none ∧
    compute_address_score "99999999999999999999 Q, B, C 1" "100000000000000000000 Q, B, C 1" <
      compute_address_score "99999999999999999999 Q, B, C 1" "99999999999999999996 Q, B, C 1" :=
  ⟨by decide, by decide, by decide, by decide, by decide, by decide, by decide⟩

/-- **C4 (amended).** The tier formulas hold as specified —
`min(tsr*0.8, 85)` for distance 1–2, `min(tsr*0.5, 60)` for 3–10,
`min(tsr*0.2, 30)` beyond 10, each bounded by its cap; an identical address
pair (house number present, non-empty street) scores exactly 100, which
strictly exceeds every tier-1 score; and the strict chain
`tier1 > tier2 > tier3` holds whenever the compared pairs attain the same
positive token-set similarity — but, as the counterexample shows, not for
all address pairs. -/
theorem claim_C4 :
    (∀ addr1 addr2 : String, ∀ n1 n2 : ℕ,
      house_number addr1 = some n1 → house_number addr2 = some n2 →
      (((n1 : ℤ) - n2).natAbs = 1 ∨ ((n1 : ℤ) - n2).natAbs = 2) →
      compute_address_score addr1 addr2 = min (token_set_ratio addr1 addr2 * (4/5)) 85 ∧
      compute_address_score addr1 addr2 ≤ 85) ∧
    (∀ addr1 addr2 : String, ∀ n1 n2 : ℕ,
      house_number addr1 = some n1 → house_number addr2 = some n2 →
      3 ≤ ((n1 : ℤ) - n2).natAbs → ((n1 : ℤ) - n2).natAbs ≤ 10 →
      compute_address_score addr1 addr2 = min (token_set_ratio addr1 addr2 * (1/2)) 60 ∧
      compute_address_score addr1 addr2 ≤ 60) ∧
    (∀ addr1 addr2 : String, ∀ n1 n2 : ℕ,
      house_number addr1 = some n1 → house_number addr2 = some n2 →
      10 < ((n1 : ℤ) - n2).natAbs →
      compute_address_score addr1 addr2 = min (token_set_ratio addr1 addr2 * (1/5)) 30 ∧
      compute_address_score addr1 addr2 ≤ 30) ∧
    (∀ addr : String, ∀ n : ℕ,
      house_number addr = some n →
      py_split_ws (normalize_street (extract_street addr)) ≠ [] →
      compute_address_score addr addr = 100) ∧
    (∀ t : ℚ, 0 < t →
      min (t * (4/5)) 85 > min (t * (1/2)) 60 ∧
      min (t * (1/2)) 60 > min (t * (1/5)) 30) := by
  refine ⟨?_, ?_, ?_, ?_, ?_⟩
  · intro addr1 addr2 n1 n2 h1 h2 hdiff
    have heq : compute_address_score addr1 addr2 =
        min (token_set_ratio addr1 addr2 * (4/5)) 85 := by
      rw [compute_address_score_of_nums addr1 addr2 n1 n2 h1 h2]
      rcases hdiff with h | h <;> rw [h] <;> norm_num
    exact ⟨heq, heq ▸ min_le_right _ _⟩
  · intro addr1 addr2 n1 n2 h1 h2 hlo hhi
    have heq : compute_address_score addr1 addr2 =
        min (token_set_ratio addr1 addr2 * (1/2)) 60 := by
      rw [compute_address_score_of_nums addr1 addr2 n1 n2 h1 h2]
      rw [if_neg (by omega), if_neg (by omega), if_pos hhi]
    exact ⟨heq, heq ▸ min_le_right _ _⟩
  · intro addr1 addr2 n1 n2 h1 h2 hlo
    have heq : compute_address_score addr1 addr2 =
        min (token_set_ratio addr1 addr2 * (1/5)) 30 := by
      rw [compute_address_score_of_nums addr1 addr2 n1 n2 h1 h2]
      rw [if_neg (by omega), if_neg (by omega), if_neg (by omega)]
    exact ⟨heq, heq ▸ min_le_right _ _⟩
  · intro addr n h1 hstreet
    rw [compute_address_score_eq_check addr addr n h1 h1,
      check_of_no_conflict addr addr (designator_conflict_self addr)]
    unfold street_gate
    rw [token_set_ratio_self _ hstreet, if_neg (by norm_num), fuzz_ratio_self]
  · intro t ht
    constructor
    · rcases le_total 85 (t * (4/5)) with h | h
      · rw [min_eq_right h]
        exact lt_of_le_of_lt (min_le_right _ _) (by norm_num)
      · rw [min_eq_left h]
        calc min (t * (1/2)) 60 ≤ t * (1/2) := min_le_left _ _
          _ < t * (4/5) := by nlinarith
    · rcases le_total 60 (t * (1/2)) with h | h
      · rw [min_eq_right h]
        exact lt_of_le_of_lt (min_le_right _ _) (by norm_num)
      · rw [min_eq_left h]
        calc min (t * (1/5)) 30 ≤ t * (1/5) := min_le_left _ _
          _ < t * (1/2) := by nlinarith

/-- Witness for C4: the tier-1 formula, the identical-pair score of 100,
and the equal-similarity chain, at concrete inputs. -/
theorem claim_C4_witness :
    house_number "10 MAIN ST, TOWN, CT 06001" = some 10 ∧
    house_number "11 MAIN ST, TOWN, CT 06001" = some 11 ∧
    ((10 : ℤ) - 11).natAbs = 1 ∧
    compute_address_score "10 MAIN ST, TOWN, CT 06001" "11 MAIN ST, TOWN, CT 06001" =
      min (token_set_ratio "10 MAIN ST, TOWN, CT 06001" "11 MAIN ST, TOWN, CT 06001" * (4/5)) 85 ∧
    py_split_ws (normalize_street (extract_street "10 MAIN ST, TOWN, CT 06001")) ≠ [] ∧
    compute_address_score "10 MAIN ST, TOWN, CT 06001" "10 MAIN ST, TOWN, CT 06001" = 100 ∧
    ((0 : ℚ) < 90 ∧ min ((90 : ℚ) * (4/5)) 85 > min ((90 : ℚ) * (1/2)) 60) :=
  ⟨by decide, by decide, by decide,
   (claim_C4.1 _ _ 10 11 (by decide) (by decide) (Or.inl (by decide))).1,
   by decide,
   claim_C4.2.2.2.1 _ 10 (by decide) (by decide),
   by decide, (claim_C4.2.2.2.2 90 (by decide)).1⟩

/-- **C5.** The strategy combiner: `FullName` is the mean of the first- and
last-name scores with the zero rule; `LastNameAddress` (as rescored by the
run loop) is the mean of the last-name score and the address score of the
designator-stripped addresses, with the same zero rule; `FullAddress` is
exactly the address score. -/
theorem claim_C5 :
    (∀ f l a : ℚ, 0 ≤ f → f ≤ 100 → 0 ≤ l → l ≤ 100 → 0 ≤ a → a ≤ 100 →
      ((f = 0 ∨ l = 0) → get_combined_score (f, l, a) .FullName = 0) ∧
      (0 < f → 0 < l → get_combined_score (f, l, a) .FullName = (f + l) / 2)) ∧
    (∀ row1 row2 : Row, py_strip row1.FullAddress ≠ "" →
      ((token_set_ratio row1.Last_Name row2.Last_Name = 0 ∨
        compute_address_score (strip_property_designators (py_strip row1.FullAddress))
          (strip_property_designators row2.FullAddress) = 0) →
        accurate_score row1 row2 .LastNameAddress = 0) ∧
      (0 < token_set_ratio row1.Last_Name row2.Last_Name →
       0 < compute_address_score (strip_property_designators (py_strip row1.FullAddress))
          (strip_property_designators row2.FullAddress) →
        accurate_score row1 row2 .LastNameAddress =
          (token_set_ratio row1.Last_Name row2.Last_Name +
           compute_address_score (strip_property_designators (py_strip row1.FullAddress))
             (strip_property_designators row2.FullAddress)) / 2)) ∧
    (∀ scores : ℚ × ℚ × ℚ, get_combined_score scores .FullAddress = scores.2.2) := by
  refine ⟨?_, ?_, fun scores => rfl⟩
  · intro f l a _ _ _ _ _ _
    constructor
    · rintro (rfl | rfl) <;> simp [get_combined_score]
    · intro hf hl
      simp [get_combined_score, hf, hl]
  · intro row1 row2 hne
    have haddr : last_name_address_input_addr row1 = py_strip row1.FullAddress := by
      unfold last_name_address_input_addr
      simp [hne]
    have hsc : accurate_score row1 row2 .LastNameAddress =
        get_combined_score
          (token_set_ratio row1.First_Name row2.First_Name,
           token_set_ratio row1.Last_Name row2.Last_Name,
           compute_address_score (strip_property_designators (py_strip row1.FullAddress))
             (strip_property_designators row2.FullAddress)) .LastNameAddress := by
      unfold accurate_score strategy_scores
      rw [haddr]
    rw [hsc]
    constructor
    · rintro (h | h) <;> simp [get_combined_score, h]
    · intro hl ha
      simp [get_combined_score, hl, ha]

/-- Rows for the C5 witness: identical people in units APT 5 and APT 6 of
the same building (the spec's §8 scenario). -/
def c5_row1 : Row := ⟨"JOHN", "DOE", "", "", "", "", "123 MAIN ST APT 5, TOWN, CT 06001"⟩

/-- Master-side row for the C5 witness. -/
def c5_row2 : Row := ⟨"JOHN", "DOE", "", "", "", "", "123 MAIN ST APT 6, TOWN, CT 06001"⟩

/-- Witness for C5: with designators stripped, the addresses coincide, the
components are positive, and the combined score is their mean. -/
theorem claim_C5_witness :
    py_strip c5_row1.FullAddress ≠ "" ∧
    0 < token_set_ratio c5_row1.Last_Name c5_row2.Last_Name ∧
    0 < compute_address_score (strip_property_designators (py_strip c5_row1.FullAddress))
      (strip_property_designators c5_row2.FullAddress) ∧
    accurate_score c5_row1 c5_row2 .LastNameAddress =
      (token_set_ratio c5_row1.Last_Name c5_row2.Last_Name +
       compute_address_score (strip_property_designators (py_strip c5_row1.FullAddress))
         (strip_property_designators c5_row2.FullAddress)) / 2 :=
  ⟨by decide, by decide, by decide,
   (claim_C5.2.1 c5_row1 c5_row2 (by decide)).2 (by decide) (by decide)⟩

lemma make_full_address_empty (a c s z : String)
    (h : a = "" ∨ c = "" ∨ s = "" ∨ z = "") : make_full_address a c s z = "" := by
  have hcond : ¬(a ≠ "" ∧ c ≠ "" ∧ s ≠ "" ∧ z ≠ "") := by tauto
  simp only [make_full_address, if_neg hcond]

lemma make_full_address_nonempty (a c s z : String)
    (ha : a ≠ "") (hc : c ≠ "") (hs : s ≠ "") (hz : z ≠ "") :
    make_full_address a c s z =
      py_strip_chars [',', ' '] (a ++ ", " ++ c ++ ", " ++ s ++ " " ++ z) := by
  simp only [make_full_address, if_pos (And.intro ha (And.intro hc (And.intro hs hz)))]

lemma toNat_ofNat_of_valid {m : Nat} (h : m.isValidChar) : (Char.ofNat m).toNat = m := by
  unfold Char.ofNat
  rw [dif_pos h]
  rfl

lemma py_is_space_lt (c : Char) (h : py_is_space c = true) : c.toNat < 33 := by
  unfold py_is_space at h
  simp only [Bool.or_eq_true, beq_iff_eq] at h
  rcases h with ((((h | h) | h) | h) | h) | h
  · subst h; decide
  · subst h; decide
  · subst h; decide
  · subst h; decide
  · omega
  · omega

lemma py_is_space_eq_false_of_ge {c : Char} (h : 33 ≤ c.toNat) : py_is_space c = false := by
  cases hc : py_is_space c
  · rfl
  · have := py_is_space_lt c hc
    omega

/-- `Char.toUpper` never creates or destroys whitespace. -/
lemma py_is_space_toUpper (c : Char) : py_is_space (Char.toUpper c) = py_is_space c := by
  unfold Char.toUpper
  simp only []
  split
  · rename_i h
    have hv : (c.toNat - 32).isValidChar := Or.inl (by omega)
    have ht : (Char.ofNat (c.toNat - 32)).toNat = c.toNat - 32 := toNat_ofNat_of_valid hv
    have h1 : py_is_space c = false := py_is_space_eq_false_of_ge (by omega)
    have h2 : py_is_space (Char.ofNat (c.toNat - 32)) = false := by
      apply py_is_space_eq_false_of_ge
      rw [ht]
      omega
    rw [h1, h2]
  · rfl

lemma strip_list_map_toUpper (l : List Char) :
    strip_list py_is_space (l.map Char.toUpper) =
      (strip_list py_is_space l).map Char.toUpper := by
  have hpf : (py_is_space ∘ Char.toUpper) = py_is_space := funext py_is_space_toUpper
  unfold strip_list
  rw [List.dropWhile_map, hpf, ← List.map_reverse, List.dropWhile_map, hpf, ← List.map_reverse]

/-- Uppercasing commutes with trimming. -/
lemma strip_upper_comm (s : String) : py_strip (py_upper s) = py_upper (py_strip s) :=
  congrArg String.mk (strip_list_map_toUpper s.data)

lemma py_upper_eq_empty_iff (s : String) : py_upper s = "" ↔ s = "" := by
  unfold py_upper
  constructor
  · intro h
    have h2 : s.data.map Char.toUpper = [] := congrArg String.data h
    have h3 : s.data = [] := List.map_eq_nil_iff.mp h2
    cases s
    simp_all
  · intro h
    subst h
    rfl

lemma py_upper_append (s t : String) : py_upper (s ++ t) = py_upper s ++ py_upper t := by
  show String.mk ((s ++ t).data.map Char.toUpper) = _
  rw [String.data_append, List.map_append]
  rfl

lemma derive_input_full_address_of_empty (addr_line city st z : String)
    (h : py_strip addr_line = "" ∨ py_strip city = "" ∨ py_strip st = "" ∨ py_strip z = "") :
    derive_input_full_address addr_line city st z = "" := by
  have hcond : ¬(py_strip addr_line ≠ "" ∧ py_strip city ≠ "" ∧ py_strip st ≠ "" ∧
      py_strip z ≠ "") := by tauto
  simp only [derive_input_full_address, if_neg hcond]

lemma derive_input_full_address_of_core (addr_line city st z : String)
    (h1 : py_strip addr_line ≠ "") (h2 : py_strip city ≠ "") (h3 : py_strip st ≠ "")
    (h4 : py_strip z ≠ "") :
    derive_input_full_address addr_line city st z =
      py_strip_chars [',', ' ']
        (collapse_ws (addr_line ++ ", " ++ city ++ ", " ++ st ++ " " ++ z)) := by
  simp only [derive_input_full_address, if_pos (And.intro h1 (And.intro h2 (And.intro h3 h4)))]

/-- The record produced by `preprocess_data_row` on `Address1 = ","`:
all four parts are non-empty, yet `FullAddress` is not the plain
comma-separated concatenation (the final `strip(', ')` eats the leading
comma of the part). -/
def c8_row : Row := preprocess_data_row "" "" "," "C" "S" "1"

/-- The record produced by the variable-input path on the raw city
`" C "`: the derived `FullAddress` keeps a space before the comma because
the whitespace collapse and edge strip run on the *raw* parts, before the
per-field normalization. -/
def c8_row2 : Row := preprocess_input_row "" "" "12 MAIN ST" none " C " "S" "1" none

/-- **C8 (counterexample).** With all four parts non-empty, `full_address`
is not always their comma-separated concatenation, on either normalization
path.  Master path (`preprocess_data`): the final `strip(', ')` changes the
concatenation whenever a part begins or ends with a comma (`Address1 =
","`).  Variable-input path (`preprocess_input_variable`, lines 132–161):
`FullAddress` is built from the *raw* parts, whitespace-collapsed and
edge-stripped before the per-field normalization, so the raw city `" C "`
yields `"12 MAIN ST, C , S 1"` while the record's normalized parts
concatenate to `"12 MAIN ST, C, S 1"`. -/
theorem claim_C8_counterexample :
    (c8_row.Address1 = "," ∧ c8_row.City = "C" ∧ c8_row.State = "S" ∧ c8_row.Zip = "1" ∧
     c8_row.Address1 ≠ "" ∧ c8_row.City ≠ "" ∧ c8_row.State ≠ "" ∧ c8_row.Zip ≠ "" ∧
     c8_row.FullAddress = "C, S 1" ∧
     c8_row.FullAddress ≠
       c8_row.Address1 ++ ", " ++ c8_row.City ++ ", " ++ c8_row.State ++ " " ++ c8_row.Zip) ∧
    (c8_row2.Address1 = "12 MAIN ST" ∧ c8_row2.City = "C" ∧ c8_row2.State = "S" ∧
     c8_row2.Zip = "1" ∧
     c8_row2.Address1 ≠ "" ∧ c8_row2.City ≠ "" ∧ c8_row2.State ≠ "" ∧ c8_row2.Zip ≠ "" ∧
     c8_row2.FullAddress = "12 MAIN ST, C , S 1" ∧
     c8_row2.FullAddress ≠
       c8_row2.Address1 ++ ", " ++ c8_row2.City ++ ", " ++ c8_row2.State ++ " " ++
         c8_row2.Zip) := by
  decide

/-- **C8 (amended).** On both normalization paths the derived
`full_address` is non-empty only when the address line, city, state and zip
are all non-empty after trimming, and it is empty whenever one of them is
(no partial derivation).  When all parts are non-empty it is their
comma-separated concatenation only up to the cleanup the code applies:
`preprocess_data` builds it from the already-normalized parts and strips
`','`/`' '` from both ends; `preprocess_input_variable` builds it from the
*raw* parts (`Address1` merged with `Address2` when mapped) with whitespace
runs collapsed and edges stripped *before* the per-field normalization, so
it coincides with the concatenation of the record's normalized parts
exactly when that cleanup is the identity on the raw concatenation (parts
already trimmed, single-spaced, no edge commas); a directly mapped
`FullAddress` column bypasses the parts entirely and is only uppercased and
trimmed. -/
theorem claim_C8 :
    (∀ first last a1 city st z : String,
      ((preprocess_data_row first last a1 city st z).FullAddress ≠ "" →
        (preprocess_data_row first last a1 city st z).Address1 ≠ "" ∧
        (preprocess_data_row first last a1 city st z).City ≠ "" ∧
        (preprocess_data_row first last a1 city st z).State ≠ "" ∧
        (preprocess_data_row first last a1 city st z).Zip ≠ "") ∧
      ((preprocess_data_row first last a1 city st z).Address1 ≠ "" →
       (preprocess_data_row first last a1 city st z).City ≠ "" →
       (preprocess_data_row first last a1 city st z).State ≠ "" →
       (preprocess_data_row first last a1 city st z).Zip ≠ "" →
        (preprocess_data_row first last a1 city st z).FullAddress =
          py_strip_chars [',', ' ']
            ((preprocess_data_row first last a1 city st z).Address1 ++ ", " ++
             (preprocess_data_row first last a1 city st z).City ++ ", " ++
             (preprocess_data_row first last a1 city st z).State ++ " " ++
             (preprocess_data_row first last a1 city st z).Zip)) ∧
      (((preprocess_data_row first last a1 city st z).Address1 = "" ∨
        (preprocess_data_row first last a1 city st z).City = "" ∨
        (preprocess_data_row first last a1 city st z).State = "" ∨
        (preprocess_data_row first last a1 city st z).Zip = "") →
        (preprocess_data_row first last a1 city st z).FullAddress = "")) ∧
    (∀ (first last a1 : String) (a2? : Option String) (city st z : String),
      (preprocess_input_row first last a1 a2? city st z none).FullAddress ≠ "" →
      py_strip (input_addr_line a1 a2?) ≠ "" ∧
      (preprocess_input_row first last a1 a2? city st z none).City ≠ "" ∧
      (preprocess_input_row first last a1 a2? city st z none).State ≠ "" ∧
      (preprocess_input_row first last a1 a2? city st z none).Zip ≠ "") ∧
    (∀ (first last a1 : String) (a2? : Option String) (city st z : String),
      (py_strip (input_addr_line a1 a2?) = "" ∨ py_strip city = "" ∨
       py_strip st = "" ∨ py_strip z = "") →
      (preprocess_input_row first last a1 a2? city st z none).FullAddress = "") ∧
    (∀ first last a1 city st z : String,
      py_strip a1 = a1 → py_strip city = city → py_strip st = st → py_strip z = z →
      a1 ≠ "" → city ≠ "" → st ≠ "" → z ≠ "" →
      collapse_ws (a1 ++ ", " ++ city ++ ", " ++ st ++ " " ++ z) =
        a1 ++ ", " ++ city ++ ", " ++ st ++ " " ++ z →
      py_strip_chars [',', ' '] (a1 ++ ", " ++ city ++ ", " ++ st ++ " " ++ z) =
        a1 ++ ", " ++ city ++ ", " ++ st ++ " " ++ z →
      py_strip (a1 ++ ", " ++ city ++ ", " ++ st ++ " " ++ z) =
        a1 ++ ", " ++ city ++ ", " ++ st ++ " " ++ z →
      (preprocess_input_row first last a1 none city st z none).FullAddress =
        (preprocess_input_row first last a1 none city st z none).Address1 ++ ", " ++
        (preprocess_input_row first last a1 none city st z none).City ++ ", " ++
        (preprocess_input_row first last a1 none city st z none).State ++ " " ++
        (preprocess_input_row first last a1 none city st z none).Zip) ∧
    (∀ (first last a1 : String) (a2? : Option String) (city st z fa : String),
      (preprocess_input_row first last a1 a2? city st z (some fa)).FullAddress =
        py_strip (py_upper fa)) := by
  refine ⟨?_, ?_, ?_, ?_, ?_⟩
  · intro first last a1 city st z
    have hFA : (preprocess_data_row first last a1 city st z).FullAddress =
        make_full_address (preprocess_data_row first last a1 city st z).Address1
          (preprocess_data_row first last a1 city st z).City
          (preprocess_data_row first last a1 city st z).State
          (preprocess_data_row first last a1 city st z).Zip := rfl
    refine ⟨?_, ?_, ?_⟩
    · intro hne
      by_contra hcon
      apply hne
      rw [hFA]
      apply make_full_address_empty
      tauto
    · intro ha hc hs hz
      rw [hFA]
      exact make_full_address_nonempty _ _ _ _ ha hc hs hz
    · intro h
      rw [hFA]
      exact make_full_address_empty _ _ _ _ h
  · intro first last a1 a2? city st z hne
    by_cases hcore : py_strip (input_addr_line a1 a2?) ≠ "" ∧ py_strip city ≠ "" ∧
        py_strip st ≠ "" ∧ py_strip z ≠ ""
    · obtain ⟨hA, hC, hS, hZ⟩ := hcore
      refine ⟨hA, ?_, ?_, ?_⟩
      · show py_strip (py_upper city) ≠ ""
        rw [strip_upper_comm]
        intro h0
        exact hC ((py_upper_eq_empty_iff _).mp h0)
      · show py_strip (py_upper st) ≠ ""
        rw [strip_upper_comm]
        intro h0
        exact hS ((py_upper_eq_empty_iff _).mp h0)
      · show py_strip (py_upper z) ≠ ""
        rw [strip_upper_comm]
        intro h0
        exact hZ ((py_upper_eq_empty_iff _).mp h0)
    · exfalso
      apply hne
      show py_strip (py_upper
        (derive_input_full_address (input_addr_line a1 a2?) city st z)) = ""
      rw [derive_input_full_address_of_empty _ _ _ _ (by tauto)]
      rfl
  · intro first last a1 a2? city st z h
    show py_strip (py_upper
      (derive_input_full_address (input_addr_line a1 a2?) city st z)) = ""
    rw [derive_input_full_address_of_empty _ _ _ _ h]
    rfl
  · intro first last a1 city st z ha1 hc hs hz na1 nc ns nz hcol hcs hstrip
    show py_strip (py_upper (derive_input_full_address a1 city st z)) =
      py_strip (py_upper a1) ++ ", " ++ py_strip (py_upper city) ++ ", " ++
      py_strip (py_upper st) ++ " " ++ py_strip (py_upper z)
    rw [derive_input_full_address_of_core a1 city st z
      (by rw [ha1]; exact na1) (by rw [hc]; exact nc)
      (by rw [hs]; exact ns) (by rw [hz]; exact nz)]
    rw [hcol, hcs, strip_upper_comm, hstrip]
    simp only [strip_upper_comm, ha1, hc, hs, hz, py_upper_append]
    rfl
  · intro first last a1 a2? city st z fa
    rfl

/-- Witness for C8: on the master path a regular address where the strip
is the identity, and on the variable-input path an already-normalized raw
record whose derived `FullAddress` equals the concatenation of its
normalized parts. -/
theorem claim_C8_witness :
    ((preprocess_data_row "john" "doe" "123 Main St" "Anytown" "ct" "06001").Address1 ≠ "" ∧
     (preprocess_data_row "john" "doe" "123 Main St" "Anytown" "ct" "06001").City ≠ "" ∧
     (preprocess_data_row "john" "doe" "123 Main St" "Anytown" "ct" "06001").State ≠ "" ∧
     (preprocess_data_row "john" "doe" "123 Main St" "Anytown" "ct" "06001").Zip ≠ "" ∧
     (preprocess_data_row "john" "doe" "123 Main St" "Anytown" "ct" "06001").FullAddress =
       py_strip_chars [',', ' ']
         ((preprocess_data_row "john" "doe" "123 Main St" "Anytown" "ct" "06001").Address1 ++
          ", " ++
          (preprocess_data_row "john" "doe" "123 Main St" "Anytown" "ct" "06001").City ++
          ", " ++
          (preprocess_data_row "john" "doe" "123 Main St" "Anytown" "ct" "06001").State ++
          " " ++
          (preprocess_data_row "john" "doe" "123 Main St" "Anytown" "ct" "06001").Zip) ∧
     (preprocess_data_row "john" "doe" "123 Main St" "Anytown" "ct" "06001").FullAddress =
       "123 MAIN ST, ANYTOWN, CT 06001") ∧
    (py_strip "12 MAIN ST" = "12 MAIN ST" ∧ py_strip "Springfield" = "Springfield" ∧
     py_strip "IL" = "IL" ∧ py_strip "62704" = "62704" ∧
     collapse_ws ("12 MAIN ST" ++ ", " ++ "Springfield" ++ ", " ++ "IL" ++ " " ++ "62704") =
       "12 MAIN ST" ++ ", " ++ "Springfield" ++ ", " ++ "IL" ++ " " ++ "62704" ∧
     py_strip_chars [',', ' ']
         ("12 MAIN ST" ++ ", " ++ "Springfield" ++ ", " ++ "IL" ++ " " ++ "62704") =
       "12 MAIN ST" ++ ", " ++ "Springfield" ++ ", " ++ "IL" ++ " " ++ "62704" ∧
     (preprocess_input_row "" "" "12 MAIN ST" none "Springfield" "IL" "62704" none).FullAddress =
       (preprocess_input_row "" "" "12 MAIN ST" none "Springfield" "IL" "62704" none).Address1 ++
       ", " ++
       (preprocess_input_row "" "" "12 MAIN ST" none "Springfield" "IL" "62704" none).City ++
       ", " ++
       (preprocess_input_row "" "" "12 MAIN ST" none "Springfield" "IL" "62704" none).State ++
       " " ++
       (preprocess_input_row "" "" "12 MAIN ST" none "Springfield" "IL" "62704" none).Zip ∧
     (preprocess_input_row "" "" "12 MAIN ST" none "Springfield" "IL" "62704" none).FullAddress =
       "12 MAIN ST, SPRINGFIELD, IL 62704") :=
  ⟨⟨by decide, by decide, by decide, by decide,
    (claim_C8.1 "john" "doe" "123 Main St" "Anytown" "ct" "06001").2.1
      (by decide) (by decide) (by decide) (by decide),
    by decide⟩,
   ⟨by decide, by decide, by decide, by decide, by decide, by decide,
    claim_C8.2.2.2.1 "" "" "12 MAIN ST" "Springfield" "IL" "62704"
      (by decide) (by decide) (by decide) (by decide) (by decide) (by decide)
      (by decide) (by decide) (by decide) (by decide) (by decide),
    by decide⟩⟩

/-- **C9 (counterexample).** The suffix-absorption rule is guarded by
`len(parts) >= 3` in the source: a two-token name ending in a suffix token
is split by the plain last-space rule, not by absorbing the suffix together
with the preceding token into the last name. -/
theorem claim_C9_counterexample :
    py_upper (rstrip_dots "Jr") = "JR" ∧ SUFFIX_TOKENS.contains "JR" = true ∧
    split_full_name "Doe Jr" = ("Doe", "Jr") ∧
    split_full_name "Doe Jr" ≠ ("", "Doe Jr") := by
  decide

/-- Master row for the C9 scenario (First=JANE, Last="DOE JR"). -/
def c9_master : Row := ⟨"JANE", "DOE JR", "", "", "", "", ""⟩

/-- **C9 (amended).** Splitting uses the last-space rule, and a trailing
suffix token from {JR, SR, II, III, IV} (with trailing periods stripped) is
absorbed together with the preceding token into the last-name half *when
the name has at least three whitespace-separated tokens* (two-token names
use the plain last-space rule).  In particular "Jane Doe Jr" splits into
("Jane", "Doe Jr") and, against a master with First=JANE/Last="DOE JR", the
FullName strategy yields exactly one match. -/
theorem claim_C9 :
    (∀ name : String,
      3 ≤ (py_split_ws (py_strip name)).length →
      SUFFIX_TOKENS.contains
        (py_upper (rstrip_dots (last_or_empty (py_split_ws (py_strip name))))) = true →
      split_full_name name =
        (join_with " " ((py_split_ws (py_strip name)).take
          ((py_split_ws (py_strip name)).length - 2)),
         join_with " " ((py_split_ws (py_strip name)).drop
          ((py_split_ws (py_strip name)).length - 2)))) ∧
    split_full_name "Jane Doe Jr" = ("Jane", "Doe Jr") ∧
    input_row_from_full_name "Jane Doe Jr" = ⟨"JANE", "DOE JR", "", "", "", "", ""⟩ ∧
    (run_specific_match [input_row_from_full_name "Jane Doe Jr"] [c9_master]
      .FullName none).length = 1 := by
  refine ⟨?_, by decide, by decide, by decide⟩
  intro name h3 hsuf
  have hname : ¬(py_strip name = "") := by
    intro h0
    rw [h0] at h3
    simp [py_split_ws, split_ws_aux] at h3
  unfold split_full_name
  rw [if_neg hname]
  rcases hp : py_split_ws (py_strip name) with _ | ⟨p1, _ | ⟨p2, rest⟩⟩
  · rw [hp] at h3; simp at h3
  · rw [hp] at h3; simp at h3
  · rw [hp] at h3 hsuf
    simp only []
    rw [if_pos ⟨hsuf, h3⟩]

/-- Witness for the C9 absorption rule at a four-token name with a
period-bearing suffix. -/
theorem claim_C9_witness :
    3 ≤ (py_split_ws (py_strip "John Jacob Smith Sr.")).length ∧
    SUFFIX_TOKENS.contains
      (py_upper (rstrip_dots (last_or_empty (py_split_ws (py_strip "John Jacob Smith Sr."))))) = true ∧
    split_full_name "John Jacob Smith Sr." =
      (join_with " " ((py_split_ws (py_strip "John Jacob Smith Sr.")).take
        ((py_split_ws (py_strip "John Jacob Smith Sr.")).length - 2)),
       join_with " " ((py_split_ws (py_strip "John Jacob Smith Sr.")).drop
        ((py_split_ws (py_strip "John Jacob Smith Sr.")).length - 2))) ∧
    split_full_name "John Jacob Smith Sr." = ("John Jacob", "Smith Sr.") :=
  ⟨by decide, by decide, claim_C9.1 _ (by decide) (by decide), by decide⟩

/-! ## Run-loop lemmas -/

lemma insert_cand_perm (x : (Nat × Row) × ℚ) :
    ∀ l : List ((Nat × Row) × ℚ), List.Perm (insert_cand x l) (x :: l)
  | [] => List.Perm.refl _
  | y :: ys => by
    unfold insert_cand
    split
    · exact List.Perm.refl _
    · exact ((insert_cand_perm x ys).cons y).trans (List.Perm.swap x y ys)

lemma sort_cands_perm : ∀ l : List ((Nat × Row) × ℚ), List.Perm (sort_cands l) l
  | [] => List.Perm.refl _
  | x :: xs => (insert_cand_perm x (sort_cands xs)).trans ((sort_cands_perm xs).cons x)

lemma insert_rec_perm (x : MatchRec) : ∀ l : List MatchRec, List.Perm (insert_rec x l) (x :: l)
  | [] => List.Perm.refl _
  | y :: ys => by
    unfold insert_rec
    split
    · exact List.Perm.refl _
    · exact ((insert_rec_perm x ys).cons y).trans (List.Perm.swap x y ys)

lemma sort_recs_perm : ∀ l : List MatchRec, List.Perm (sort_recs l) l
  | [] => List.Perm.refl _
  | x :: xs => (insert_rec_perm x (sort_recs xs)).trans ((sort_recs_perm xs).cons x)

lemma mem_shortlist {q : String} {pool : List (Nat × Row)} {mt : MatchType}
    {thr : ℚ} {c : (Nat × Row) × ℚ} (h : c ∈ shortlist q pool mt thr) :
    c ∈ scored_pool q pool mt := by
  unfold shortlist at h
  have h1 := (List.takeWhile_sublist _).subset h
  have h2 := (List.take_sublist _ _).subset h1
  exact (sort_cands_perm _).subset h2

lemma mem_scored_pool {q : String} {pool : List (Nat × Row)} {mt : MatchType}
    {c : (Nat × Row) × ℚ} (h : c ∈ scored_pool q pool mt) : c.1 ∈ pool := by
  unfold scored_pool at h
  rcases List.mem_map.mp h with ⟨p, hp, rfl⟩
  exact hp

/-- Characterization of the candidate loop: a returned best entry is the
first list element attaining the final (maximal) exact score; everything
before it scores strictly below, everything after at most equal. -/
lemma best_cand_aux_spec (row1 : Row) (mt : MatchType) :
    ∀ (l : List ((Nat × Row) × ℚ)) (b : ℚ) (o : Option (Nat × Row)) (s : ℚ) (p : Nat × Row),
      best_cand_aux row1 mt (b, o) l = (s, some p) →
      (o = some p ∧ s = b ∧ ∀ c ∈ l, accurate_score row1 c.1.2 mt ≤ b) ∨
      (∃ l₁ c l₂, l = l₁ ++ c :: l₂ ∧ p = c.1 ∧ s = accurate_score row1 c.1.2 mt ∧ b < s ∧
        (∀ d ∈ l₁, accurate_score row1 d.1.2 mt < s) ∧
        (∀ d ∈ l₂, accurate_score row1 d.1.2 mt ≤ s))
  | [], b, o, s, p => by
    intro h
    unfold best_cand_aux at h
    injection h with h1 h2
    exact Or.inl ⟨h2, h1.symm, by simp⟩
  | c :: cs, b, o, s, p => by
    intro h
    unfold best_cand_aux at h
    by_cases hlt : b < accurate_score row1 c.1.2 mt
    · rw [if_pos hlt] at h
      rcases best_cand_aux_spec row1 mt cs _ _ _ _ h with ⟨ho, hs, hall⟩ | ⟨l₁, d, l₂, hsp, hpd, hs, hbs, hpre, hsuf⟩
      · refine Or.inr ⟨[], c, cs, by simp, (Option.some_inj.mp ho).symm, hs,
          by rw [hs]; exact hlt, by simp, ?_⟩
        intro d hd
        rw [hs]
        exact hall d hd
      · refine Or.inr ⟨c :: l₁, d, l₂, by simp [hsp], hpd, hs, lt_trans hlt hbs, ?_, hsuf⟩
        intro e he
        rcases List.mem_cons.mp he with rfl | he
        · exact hbs
        · exact hpre e he
    · rw [if_neg hlt] at h
      rcases best_cand_aux_spec row1 mt cs _ _ _ _ h with ⟨ho, hs, hall⟩ | ⟨l₁, d, l₂, hsp, hpd, hs, hbs, hpre, hsuf⟩
      · refine Or.inl ⟨ho, hs, ?_⟩
        intro e he
        rcases List.mem_cons.mp he with rfl | he
        · exact not_lt.mp hlt
        · exact hall e he
      · refine Or.inr ⟨c :: l₁, d, l₂, by simp [hsp], hpd, hs, hbs, ?_, hsuf⟩
        intro e he
        rcases List.mem_cons.mp he with rfl | he
        · exact lt_of_le_of_lt (not_lt.mp hlt) hbs
        · exact hpre e he

/-- A skipped input row (strategy `FullAddress`, blank `FullAddress`)
produces no result. -/
lemma process_row_skip {pool : List (Nat × Row)} {thr : ℚ} {i : ℕ} {row1 : Row}
    (h : py_strip row1.FullAddress = "") :
    process_row pool .FullAddress thr (i, row1) = none := by
  unfold process_row
  rw [if_pos ⟨rfl, h⟩]

/-- Characterization of a successful `process_row`. -/
lemma process_row_spec {pool : List (Nat × Row)} {mt : MatchType} {thr : ℚ}
    {i : ℕ} {row1 : Row} {r : MatchRec}
    (h : process_row pool mt thr (i, row1) = some r) :
    r.sheetARow = i + 2 ∧
    ∃ l₁ c l₂, shortlist (create_search_string row1 mt) pool mt thr = l₁ ++ c :: l₂ ∧
      r.sheetBRow = c.1.1 + 2 ∧ r.addrB = c.1.2.FullAddress ∧
      r.score = py_round2 (accurate_score row1 c.1.2 mt) ∧
      thr ≤ accurate_score row1 c.1.2 mt ∧
      0 < accurate_score row1 c.1.2 mt ∧
      (∀ d ∈ l₁, accurate_score row1 d.1.2 mt < accurate_score row1 c.1.2 mt) ∧
      (∀ d ∈ l₂, accurate_score row1 d.1.2 mt ≤ accurate_score row1 c.1.2 mt) := by
  unfold process_row at h
  split at h
  · exact absurd h (by simp)
  · simp only [] at h
    rcases hbest : best_cand_aux row1 mt (0, none)
        (shortlist (create_search_string row1 mt) pool mt thr) with ⟨s, o⟩
    rw [hbest] at h
    rcases o with _ | ⟨idx2, row2⟩
    · exact absurd h (by simp)
    · simp only [] at h
      split at h
      · rename_i hthr
        rcases best_cand_aux_spec row1 mt _ _ _ _ _ hbest with
          ⟨ho, _, _⟩ | ⟨l₁, c, l₂, hsp, hpc, hs, hbs, hpre, hsuf⟩
        · exact absurd ho (by simp)
        · injection h with h
          subst h
          refine ⟨rfl, l₁, c, l₂, hsp, ?_, ?_, ?_, ?_, ?_, ?_, ?_⟩
          · show idx2 + 2 = c.1.1 + 2
            rw [← hpc]
          · show row2.FullAddress = c.1.2.FullAddress
            rw [← hpc]
          · show py_round2 s = py_round2 (accurate_score row1 c.1.2 mt)
            rw [hs]
          · rw [← hs]; exact hthr
          · rw [← hs]; exact hbs
          · intro d hd; rw [← hs]; exact hpre d hd
          · intro d hd; rw [← hs]; exact hsuf d hd
      · exact absurd h (by simp)

/-- Per-strategy output rows have pairwise distinct `sheetARow`
(one result per input row at most). -/
lemma pairwise_out (pool : List (Nat × Row)) (mt : MatchType) (thr : ℚ) :
    ∀ (l : List Row) (n : ℕ),
      List.Pairwise (fun r1 r2 => r1.sheetARow ≠ r2.sheetARow)
        (List.filterMap (process_row pool mt thr) (List.enumFrom n l))
  | [], _ => by simp
  | x :: xs, n => by
    rw [List.enumFrom_cons]
    rcases hx : process_row pool mt thr (n, x) with _ | r
    · rw [List.filterMap_cons_none hx]
      exact pairwise_out pool mt thr xs (n + 1)
    · rw [List.filterMap_cons_some hx]
      refine List.Pairwise.cons ?_ (pairwise_out pool mt thr xs (n + 1))
      intro r2 hr2
      obtain ⟨⟨i, row⟩, ha, hpa⟩ := List.mem_filterMap.mp hr2
      have h1 : r.sheetARow = n + 2 := (process_row_spec hx).1
      have h2 : r2.sheetARow = i + 2 := (process_row_spec hpa).1
      have h3 : n + 1 ≤ i := List.le_fst_of_mem_enumFrom ha
      omega

lemma enum_snd_unique {l : List Row} {i : ℕ} {x y : Row}
    (hx : (i, x) ∈ l.enum) (hy : (i, y) ∈ l.enum) : x = y := by
  have h1 := List.mk_mem_enum_iff_getElem?.mp hx
  have h2 := List.mk_mem_enum_iff_getElem?.mp hy
  rw [h1] at h2
  exact Option.some_inj.mp h2

/-- Input-side rows of the counterexample to the C2 tie-break:
the query row. -/
def c2_input : Row := ⟨"", "", "", "", "", "", "1 AA BB, C, D 2"⟩

/-- Master row 0: same exact score as master 1 but a lower approximate
(token-set) score against the query. -/
def c2_master0 : Row := ⟨"", "", "", "", "", "", "1 AA BB, X, Y 9"⟩

/-- Master row 1: tied exact score, higher approximate score. -/
def c2_master1 : Row := ⟨"", "", "", "", "", "", "1 BB AA, C, D 2"⟩

/-- **C2 (counterexample).** Both masters attain the same maximal exact
combined score (80 = the FullAddress threshold), yet the emitted record
references master index 1 (`Sheet B Row` 3), not the first-by-original-order
master index 0: the loop keeps the first candidate *in shortlist order*,
which is descending approximate score — master 1 approximates to 280/3 ≈
93.3 against the query versus 80 for master 0. -/
theorem claim_C2_counterexample :
    accurate_score c2_input c2_master0 .FullAddress = 80 ∧
    accurate_score c2_input c2_master1 .FullAddress = 80 ∧
    default_threshold .FullAddress = 80 ∧
    token_set_ratio c2_input.FullAddress c2_master0.FullAddress = 80 ∧
    token_set_ratio c2_input.FullAddress c2_master1.FullAddress = 280/3 ∧
    (run_specific_match [c2_input] [c2_master0, c2_master1] .FullAddress none).map
      (fun r => r.sheetBRow) = [3] :=
  ⟨by decide, by decide, by decide, by decide, by decide, by decide⟩

/-- **C2 (amended).** Every strategy run emits at most one `MatchRec` per
distinct input index (pairwise distinct `sheetARow`), and the runner is a
pure function, so repeated runs agree; but among candidates tied at the
maximal exact score the retained master is the *first in shortlist order*
(descending approximate score, approximate ties in master original order),
not the first by master original order: a successful `process_row` returns
the unique candidate that strictly beats every earlier shortlist entry and
is not beaten by any later one. -/
theorem claim_C2 :
    (∀ (df1 df2 : List Row) (mt : MatchType) (thr? : Option ℚ),
      List.Pairwise (fun r1 r2 => r1.sheetARow ≠ r2.sheetARow)
        (run_specific_match df1 df2 mt thr?)) ∧
    (∀ (pool : List (Nat × Row)) (mt : MatchType) (thr : ℚ) (i : ℕ) (row1 : Row)
        (r : MatchRec),
      process_row pool mt thr (i, row1) = some r →
      r.sheetARow = i + 2 ∧
      ∃ l₁ c l₂, shortlist (create_search_string row1 mt) pool mt thr = l₁ ++ c :: l₂ ∧
        r.sheetBRow = c.1.1 + 2 ∧
        r.score = py_round2 (accurate_score row1 c.1.2 mt) ∧
        thr ≤ accurate_score row1 c.1.2 mt ∧
        (∀ d ∈ l₁, accurate_score row1 d.1.2 mt < accurate_score row1 c.1.2 mt) ∧
        (∀ d ∈ l₂, accurate_score row1 d.1.2 mt ≤ accurate_score row1 c.1.2 mt)) := by
  constructor
  · intro df1 df2 mt thr?
    unfold run_specific_match
    exact List.Perm.pairwise
      (sort_recs_perm (List.filterMap
        (process_row (master_pool df2 mt) mt (thr?.getD (default_threshold mt))) df1.enum)).symm
      (pairwise_out (master_pool df2 mt) mt (thr?.getD (default_threshold mt)) df1 0)
      (fun h => h.symm)
  · intro pool mt thr i row1 r h
    obtain ⟨h1, l₁, c, l₂, hsp, h2, _, h4, h5, _, h7, h8⟩ := process_row_spec h
    exact ⟨h1, l₁, c, l₂, hsp, h2, h4, h5, h7, h8⟩

/-- The candidate pool of the C2 scenario. -/
def c2_pool : List (Nat × Row) := master_pool [c2_master0, c2_master1] .FullAddress

/-- The record emitted for the C2 scenario. -/
def c2_rec : MatchRec := ⟨80, 2, 3, "", "", "1 AA BB, C, D 2", "1 BB AA, C, D 2"⟩

/-- Witness for C2: the characterization applied to the concrete scenario. -/
theorem claim_C2_witness :
    process_row c2_pool .FullAddress 80 (0, c2_input) = some c2_rec ∧
    (c2_rec.sheetARow = 0 + 2 ∧
     ∃ l₁ c l₂,
       shortlist (create_search_string c2_input .FullAddress) c2_pool .FullAddress 80 =
         l₁ ++ c :: l₂ ∧
       c2_rec.sheetBRow = c.1.1 + 2 ∧
       c2_rec.score = py_round2 (accurate_score c2_input c.1.2 .FullAddress) ∧
       (80 : ℚ) ≤ accurate_score c2_input c.1.2 .FullAddress ∧
       (∀ d ∈ l₁, accurate_score c2_input d.1.2 .FullAddress <
         accurate_score c2_input c.1.2 .FullAddress) ∧
       (∀ d ∈ l₂, accurate_score c2_input d.1.2 .FullAddress ≤
         accurate_score c2_input c.1.2 .FullAddress)) :=
  ⟨by decide, claim_C2.2 c2_pool .FullAddress 80 0 c2_input c2_rec (by decide)⟩

/-- Input row of the C7 counterexample: empty `FullAddress`, non-empty
city/state/zip. -/
def c7_input : Row := ⟨"", "SMITH", "", "SPRINGFIELD", "IL", "62704", ""⟩

/-- Master row of the C7 counterexample. -/
def c7_master : Row := ⟨"", "SMITH", "", "", "", "", "5 OAK ST, SPRINGFIELD, IL 62704"⟩

/-- **C7 (counterexample).** An input record with empty normalized
`FullAddress` is *not* skipped by the `LastNameAddress` strategy: the code
falls back to `City`/`State`/`Zip` (lines 423–432 and 504–512) and here
emits a match record for that input (`Sheet A Row` 2). -/
theorem claim_C7_counterexample :
    py_strip c7_input.FullAddress = "" ∧
    (run_specific_match [c7_input] [c7_master] .LastNameAddress none).map
      (fun r => r.sheetARow) = [2] :=
  ⟨by decide, by decide⟩

/-- **C7 (amended).** Only the `FullAddress` strategy skips input records
whose normalized `FullAddress` is empty — such a record is never matched
and no `MatchRec` with its index is emitted.  (`LastNameAddress` instead
falls back to matching on last name with `City`/`State`/`Zip`.) -/
theorem claim_C7 :
    ∀ (df1 df2 : List Row) (thr? : Option ℚ) (i : ℕ) (row1 : Row),
      (i, row1) ∈ df1.enum → py_strip row1.FullAddress = "" →
      ∀ r ∈ run_specific_match df1 df2 .FullAddress thr?, r.sheetARow ≠ i + 2 := by
  intro df1 df2 thr? i row1 hmem hempty r hr heq
  unfold run_specific_match at hr
  have hr2 := (sort_recs_perm _).subset hr
  obtain ⟨⟨j, rowj⟩, haj, hpj⟩ := List.mem_filterMap.mp hr2
  have hj : r.sheetARow = j + 2 := (process_row_spec hpj).1
  have hij : j = i := by omega
  subst hij
  have hrow : rowj = row1 := enum_snd_unique haj hmem
  subst hrow
  rw [process_row_skip hempty] at hpj
  exact absurd hpj (by simp)

/-- Input rows for the C7 witness: the first has an empty address and is
skipped, the second produces the single emitted record. -/
def c7e_full : Row := ⟨"", "SMITH", "", "", "", "", "5 OAK ST, SPRINGFIELD, IL 62704"⟩

/-- Witness for C7: in a run whose output is nonempty, no record points at
the empty-address input row 0. -/
theorem claim_C7_witness :
    (0, c7_input) ∈ ([c7_input, c7e_full] : List Row).enum ∧
    py_strip c7_input.FullAddress = "" ∧
    (run_specific_match [c7_input, c7e_full] [c7_master] .FullAddress none).map
      (fun r => r.sheetARow) = [3] ∧
    (∀ r ∈ run_specific_match [c7_input, c7e_full] [c7_master] .FullAddress none,
      r.sheetARow ≠ 0 + 2) :=
  ⟨by decide, by decide, by decide,
   claim_C7 [c7_input, c7e_full] [c7_master] none 0 c7_input (by decide) (by decide)⟩

/-- **C10.** For the address-based strategies, every emitted record
references a master row that survived the pool filter — its original index
and row appear in `df2.enum` and its normalized `FullAddress` is
non-empty. -/
theorem claim_C10 :
    ∀ (df1 df2 : List Row) (mt : MatchType) (thr? : Option ℚ) (r : MatchRec),
      (mt = .FullAddress ∨ mt = .LastNameAddress) →
      r ∈ run_specific_match df1 df2 mt thr? →
      ∃ i row2, (i, row2) ∈ df2.enum ∧ r.sheetBRow = i + 2 ∧
        py_strip row2.FullAddress ≠ "" := by
  intro df1 df2 mt thr? r hmt hr
  unfold run_specific_match at hr
  have hr2 := (sort_recs_perm _).subset hr
  obtain ⟨⟨j, rowj⟩, _, hpj⟩ := List.mem_filterMap.mp hr2
  obtain ⟨_, l₁, c, l₂, hsp, h2, _, _, _, _, _, _⟩ := process_row_spec hpj
  have hc : c ∈ shortlist (create_search_string rowj mt) (master_pool df2 mt) mt
      (thr?.getD (default_threshold mt)) := by
    rw [hsp]
    exact List.mem_append_right l₁ (List.mem_cons_self c l₂)
  have hpool : c.1 ∈ master_pool df2 mt := mem_scored_pool (mem_shortlist hc)
  unfold master_pool at hpool
  rw [if_pos hmt] at hpool
  obtain ⟨hmem, hfa⟩ := List.mem_filter.mp hpool
  exact ⟨c.1.1, c.1.2, by simpa using hmem, h2, by simpa using hfa⟩

/-- Witness for C10, at the `LastNameAddress` scenario of C7. -/
theorem claim_C10_witness :
    (run_specific_match [c7_input] [c7_master] .LastNameAddress none).map
      (fun r => r.sheetBRow) = [2] ∧
    (∀ r ∈ run_specific_match [c7_input] [c7_master] .LastNameAddress none,
      ∃ i row2, (i, row2) ∈ ([c7_master] : List Row).enum ∧ r.sheetBRow = i + 2 ∧
        py_strip row2.FullAddress ≠ "") :=
  ⟨by decide, fun r hr =>
    claim_C10 [c7_input] [c7_master] .LastNameAddress none r (Or.inr rfl) hr⟩

/-! ## Schema-detection lemmas -/

lemma first_pass_error (cols : List String) :
    ∀ syn : List (String × List String),
      (∃ p ∈ syn, 2 ≤ (candidate_headers cols p.2).length) →
      ∃ e, first_pass cols syn = .error e ∧
        ∃ p ∈ syn, e.canonical = p.1 ∧ e.columns = candidate_headers cols p.2 ∧
          2 ≤ e.columns.length
  | [], h => by simp at h
  | (canonical, variants) :: rest, h => by
    by_cases hc : 2 ≤ (candidate_headers cols variants).length
    · refine ⟨⟨canonical, candidate_headers cols variants⟩, ?_,
        (canonical, variants), List.mem_cons_self _ _, rfl, rfl, hc⟩
      unfold first_pass pick_single_or_raise
      rw [if_pos hc]
    · have hrest : ∃ p ∈ rest, 2 ≤ (candidate_headers cols p.2).length := by
        rcases h with ⟨p, hp, h2⟩
        rcases List.mem_cons.mp hp with rfl | hp
        · exact absurd h2 hc
        · exact ⟨p, hp, h2⟩
      obtain ⟨e, he, p, hp, h1, h2, h3⟩ := first_pass_error cols rest hrest
      refine ⟨e, ?_, p, List.mem_cons_of_mem _ hp, h1, h2, h3⟩
      rcases hh : (candidate_headers cols variants).head? with _ | ch
      · simp only [first_pass, pick_single_or_raise, if_neg hc, hh]
        exact he
      · simp only [first_pass, pick_single_or_raise, if_neg hc, hh, he]

lemma first_pass_ok (cols : List String) :
    ∀ syn : List (String × List String),
      (∀ p ∈ syn, (candidate_headers cols p.2).length ≤ 1) →
      ∃ m, first_pass cols syn = .ok m ∧
        ∀ c f, (c, f) ∈ m →
          ∃ p ∈ syn, p.1 = c ∧ ∃ h, f.source = some h ∧ candidate_headers cols p.2 = [h]
  | [], _ => ⟨[], rfl, by simp⟩
  | (canonical, variants) :: rest, h => by
    have hc : ¬ 2 ≤ (candidate_headers cols variants).length := by
      have h0 : (candidate_headers cols variants).length ≤ 1 :=
        h (canonical, variants) (List.mem_cons_self _ _)
      omega
    obtain ⟨m, hm, hprop⟩ :=
      first_pass_ok cols rest (fun p hp => h p (List.mem_cons_of_mem _ hp))
    rcases hh : (candidate_headers cols variants).head? with _ | ch
    · refine ⟨m, ?_, ?_⟩
      · simp only [first_pass, pick_single_or_raise, if_neg hc, hh, hm]
      · intro c f hcf
        obtain ⟨p, hp, h1, hsrc⟩ := hprop c f hcf
        exact ⟨p, List.mem_cons_of_mem _ hp, h1, hsrc⟩
    · have hsingle : candidate_headers cols variants = [ch] := by
        rcases hl : candidate_headers cols variants with _ | ⟨a, tl⟩
        · rw [hl] at hh; simp at hh
        · rw [hl] at hh hc
          have ha : a = ch := by simpa using hh
          rcases tl with _ | ⟨b, tl2⟩
          · rw [ha]
          · exact absurd (by simp) hc
      refine ⟨(canonical, ⟨canonical, some ch, none⟩) :: m, ?_, ?_⟩
      · simp only [first_pass, pick_single_or_raise, if_neg hc, hh, hm]
      · intro c f hcf
        rcases List.mem_cons.mp hcf with heq | hcf
        · have hc1 : c = canonical := congrArg Prod.fst heq
          have hf : f = ⟨canonical, some ch, none⟩ := congrArg Prod.snd heq
          exact ⟨(canonical, variants), List.mem_cons_self _ _, hc1.symm, ch,
            by rw [hf], hsingle⟩
        · obtain ⟨p, hp, h1, hsrc⟩ := hprop c f hcf
          exact ⟨p, List.mem_cons_of_mem _ hp, h1, hsrc⟩

lemma mem_ite_append {l extra : List (String × DetectedField)} {x : String × DetectedField}
    {cond : Prop} [Decidable cond] (h : x ∈ (if cond then l ++ extra else l)) :
    x ∈ l ∨ x ∈ extra := by
  split at h
  · exact List.mem_append.mp h
  · exact Or.inl h

lemma derive_full_name_source {m : List (String × DetectedField)} {c : String}
    {f : DetectedField} (h : (c, f) ∈ derive_full_name m) : (c, f) ∈ m ∨ f.source = none := by
  unfold derive_full_name at h
  rcases mem_ite_append h with h | h
  · exact Or.inl h
  · simp at h
    rcases h with ⟨rfl, rfl⟩
    exact Or.inr rfl

lemma derive_first_last_source {m : List (String × DetectedField)} {c : String}
    {f : DetectedField} (h : (c, f) ∈ derive_first_last m) : (c, f) ∈ m ∨ f.source = none := by
  unfold derive_first_last at h
  split at h
  · rcases List.mem_append.mp h with h | h
    · rcases mem_ite_append h with h | h
      · exact Or.inl h
      · simp at h
        rcases h with ⟨rfl, rfl⟩
        exact Or.inr rfl
    · split at h
      · simp at h
        rcases h with ⟨rfl, rfl⟩
        exact Or.inr rfl
      · simp at h
  · exact Or.inl h

lemma derive_full_address_source {m : List (String × DetectedField)} {c : String}
    {f : DetectedField} (h : (c, f) ∈ derive_full_address m) : (c, f) ∈ m ∨ f.source = none := by
  unfold derive_full_address at h
  rcases mem_ite_append h with h | h
  · exact Or.inl h
  · simp at h
    rcases h with ⟨rfl, rfl⟩
    exact Or.inr rfl

/-- Entries added by the derivation rules carry no source header. -/
lemma add_derived_source (m : List (String × DetectedField)) (c : String) (f : DetectedField)
    (h : (c, f) ∈ add_derived m) : (c, f) ∈ m ∨ f.source = none := by
  unfold add_derived at h
  rcases derive_full_address_source h with h | h
  · rcases derive_first_last_source h with h | h
    · exact derive_full_name_source h
    · exact Or.inr h
  · exact Or.inr h

/-- **C6.** If two or more headers normalize to the same canonical field's
synonym set, `detect_schema` fails with the ambiguous-header error carrying
that canonical field and the full offending header list (it never silently
picks one); with no such ambiguity it returns a mapping in which every
canonical field with a source is backed by exactly one matching header. -/
theorem claim_C6 :
    (∀ cols : List String,
      (∃ p ∈ HEADER_SYNONYMS, 2 ≤ (candidate_headers cols p.2).length) →
      ∃ e, detect_schema cols = .error e ∧
        ∃ p ∈ HEADER_SYNONYMS, e.canonical = p.1 ∧
          e.columns = candidate_headers cols p.2 ∧ 2 ≤ e.columns.length) ∧
    (∀ cols : List String,
      (∀ p ∈ HEADER_SYNONYMS, (candidate_headers cols p.2).length ≤ 1) →
      ∃ m, detect_schema cols = .ok m ∧
        ∀ c f, (c, f) ∈ m → ∀ h, f.source = some h →
          ∃ p ∈ HEADER_SYNONYMS, p.1 = c ∧ candidate_headers cols p.2 = [h]) := by
  constructor
  · intro cols hamb
    obtain ⟨e, he, p, hp, h1, h2, h3⟩ := first_pass_error cols HEADER_SYNONYMS hamb
    refine ⟨e, ?_, p, hp, h1, h2, h3⟩
    unfold detect_schema
    rw [he]
  · intro cols hok
    obtain ⟨m, hm, hprop⟩ := first_pass_ok cols HEADER_SYNONYMS hok
    refine ⟨add_derived m, ?_, ?_⟩
    · unfold detect_schema
      rw [hm]
    · intro c f hcf h hsrc
      rcases add_derived_source m c f hcf with hmem | hnone
      · obtain ⟨p, hp, h1, h0, hs0, hcands⟩ := hprop c f hmem
        rw [hsrc] at hs0
        rw [← Option.some_inj.mp hs0] at hcands
        exact ⟨p, hp, h1, hcands⟩
      · rw [hsrc] at hnone
        exact absurd hnone (by simp)

/-- Witness for C6: `LastName` and `Last_Name` both normalize to
`lastname`; detection fails with exactly that header pair, and on the
unambiguous part of the header set it succeeds with unique sources. -/
theorem claim_C6_witness :
    (∃ p ∈ HEADER_SYNONYMS,
      2 ≤ (candidate_headers ["LastName", "Last_Name", "First"] p.2).length) ∧
    detect_schema ["LastName", "Last_Name", "First"] =
      .error ⟨"Last_Name", ["LastName", "Last_Name"]⟩ ∧
    (∃ e, detect_schema ["LastName", "Last_Name", "First"] = .error e ∧
      ∃ p ∈ HEADER_SYNONYMS,
        e.canonical = p.1 ∧
        e.columns = candidate_headers ["LastName", "Last_Name", "First"] p.2 ∧
        2 ≤ e.columns.length) :=
  ⟨by decide, by rfl, claim_C6.1 ["LastName", "Last_Name", "First"] (by decide)⟩

end ExcelFiltering
